import Mathlib

/-!
# hw-http/httpserver.c: relay, file handler and proxy handler

A shallow embedding of `relay_byte_stream`, `serve_file`, `serve_directory`,
`handle_files_request` and `handle_proxy_request`.

The C functions act on the world through system calls and through the helpers
of `libhttp.h`.  Each function is embedded as a pure function from the answers
the world gives (the results of `read`, `write`, `stat`, `open`, ...) to the
list of calls the function issues, in program order, together with the way the
function ends.
-/

namespace HttpServer

/-! ## Data model -/

/-- One `char` of payload.  The relay never inspects payload bytes. -/
abbrev Byte := Nat

/-- A file descriptor (`int`). -/
abbrev Fd := Int

/-- A NUL-terminated C string, given by its characters before the NUL. -/
abbrev CStr := List Char

/-- Constant `BUF_SIZE_MAX` (8192): the number of bytes `relay_byte_stream` allocates. -/
def BUF_SIZE_MAX : Nat := 8192

/-- Constant `REQUEST_MAX_SIZE` (8192). -/
def REQUEST_MAX_SIZE : Nat := 8192

/-- Conversion of an `int` argument to the `size_t` parameter of `read` and
`write` (64-bit `size_t`). -/
def size_t (x : Int) : Nat := (x % 18446744073709551616).toNat

/-- Conversion of a wider integer to `int` (32-bit two's complement), as done
when `buffer.st_size` is passed for the `int size` parameter of `serve_file`. -/
def to_int (x : Int) : Int := (x + 2147483648) % 4294967296 - 2147483648

/-- Structure `THREAD_ARG`. -/
structure THREAD_ARG where
  /-- Field `server_fd`. -/
  server_fd : Fd
  /-- Field `client_fd`. -/
  client_fd : Fd
  deriving DecidableEq, Repr

/-- The two functions `handle_proxy_request` starts threads on. -/
inductive StartRoutine where
  /-- Function `client_to_server`. -/
  | client_to_server
  /-- Function `server_to_client`. -/
  | server_to_client
  deriving DecidableEq, Repr

/-- Calls issued by the embedded functions, in the order the program issues them.
Library helpers of `libhttp.h` appear as single calls. -/
inductive Event where
  /-- Call `http_request_parse(fd)`. -/
  | parse (fd : Fd)
  /-- Call `http_start_response(fd, status)`. -/
  | start_response (fd : Fd) (status : Nat)
  /-- Call `http_send_header(fd, key, value)`. -/
  | send_header (fd : Fd) (key : String) (value : String)
  /-- Call `http_end_headers(fd)`. -/
  | end_headers (fd : Fd)
  /-- Call `stat(path, &buffer)`. -/
  | stat (path : CStr)
  /-- Call `open(path, O_RDONLY)` and the descriptor it returned. -/
  | open_file (path : CStr) (ret : Fd)
  /-- Call `opendir(path)`. -/
  | opendir (path : CStr)
  /-- Call `read(fd, buf, count)` and its return value. -/
  | read (fd : Fd) (count : Nat) (ret : Int)
  /-- Call `write(fd, ptr, count)`: the `count` bytes found at `ptr`, and the
  return value. -/
  | write (fd : Fd) (data : List Byte) (ret : Int)
  /-- Call `close(fd)`. -/
  | close (fd : Fd)
  /-- Call `gethostbyname2(server_proxy_hostname, AF_INET)`. -/
  | gethostbyname
  /-- Call `socket(PF_INET, SOCK_STREAM, 0)` and the descriptor it returned. -/
  | socket (ret : Fd)
  /-- Call `connect(target_fd, ...)` and its return value. -/
  | connect (fd : Fd) (ret : Int)
  /-- Call `pthread_create(&thread, NULL, start_routine, &arg)`, with the value
  of `arg` at the call. -/
  | pthread_create (thread : Nat) (start_routine : StartRoutine) (arg : THREAD_ARG)
  /-- Call `pthread_join`. -/
  | pthread_join (thread : Nat)
  deriving DecidableEq, Repr

/-- How an embedded function ends. -/
inductive Outcome where
  /-- The function returns to its caller. -/
  | returned
  /-- The process ends in `exit(status)`. -/
  | exited (status : Int)
  /-- The call `readdir(NULL)` was made. -/
  | null_dir
  deriving DecidableEq, Repr

/-! ## System calls -/

/-- Return value of `read(fd, buf, count)` when the world answers `r` and
`avail` bytes are still to come from the descriptor: a negative answer is an
error; otherwise the world delivers at most `r` bytes, the call at most `count`,
and the stream at most what is left. -/
def sys_read (r : Int) (count : Nat) (avail : Nat) : Int :=
  if r < 0 then -1 else min (min r count) avail

/-- Return value of `write(fd, ptr, count)` when the world answers `w`: a
negative answer is an error; otherwise the world takes at most `w` of the
`count` bytes offered. -/
def sys_write (w : Int) (count : Nat) : Int :=
  if w < 0 then -1 else min w count

/-- Bytes that descriptor `fd` accepted in a sequence of calls: for every
`write` on `fd` that returned `ret > 0`, the first `ret` bytes offered. -/
def delivered (fd : Fd) : List Event → List Byte
  | [] => []
  | Event.write fd1 data ret :: t =>
    if fd1 = fd ∧ 0 < ret then data.take ret.toNat ++ delivered fd t else delivered fd t
  | _ :: t => delivered fd t

/-- Recogniser of a `write` call on `fd`. -/
def Event.isWriteTo (fd : Fd) : Event → Bool
  | Event.write fd1 _ _ => fd1 = fd
  | _ => false

/-- Recogniser of a `write` call. -/
def Event.isWrite : Event → Bool
  | Event.write _ _ _ => true
  | _ => false

/-- Recogniser of a `write` call that returned an error. -/
def Event.isWriteError : Event → Bool
  | Event.write _ _ ret => ret < 0
  | _ => false

/-! ## relay_byte_stream -/

/-- The inner loop of `relay_byte_stream`:

    while((bytes_written = write(dst_fd, ptr, bytes_remain)) > 0) {
      if (bytes_written == bytes_read) break;
      bytes_remain -= bytes_written;
      ptr += bytes_written;
    }

`buf` holds the bytes the last `read` stored, `ptr` is the offset of the C
pointer into it, `wr` gives the world's answer to each `write` and `wi` counts
the `write` calls made so far.  The first argument after `bytes_read` bounds the
number of iterations; `none` means the bound was reached.  The result is the
calls issued and the new count of `write` calls. -/
def write_loop (dst_fd : Fd) (wr : Nat → Int) (buf : List Byte) (bytes_read : Int) :
    Nat → Nat → Int → Nat → Option (List Event × Nat)
  | 0, _, _, _ => none
  | fuel + 1, ptr, bytes_remain, wi =>
    let bytes_written := sys_write (wr wi) (size_t bytes_remain)
    let ev := Event.write dst_fd ((buf.drop ptr).take (size_t bytes_remain)) bytes_written
    if 0 < bytes_written then
      if bytes_written = bytes_read then some ([ev], wi + 1)
      else
        match write_loop dst_fd wr buf bytes_read fuel (ptr + bytes_written.toNat)
            (bytes_remain - bytes_written) (wi + 1) with
        | none => none
        | some (t, wi1) => some (ev :: t, wi1)
    else some ([ev], wi + 1)

/-- The outer loop of `relay_byte_stream`:

    while((bytes_read = read(src_fd, buf, size)) > 0) {
      char* ptr = buf;
      int bytes_remain = bytes_read;
      (inner loop)
    }

`src` is what the source still has to deliver, `rd` gives the world's answer to
each `read`, `ri` and `wi` count the calls made so far.  `buf` points to
`BUF_SIZE_MAX` bytes and nothing keeps a `read` from storing more: the loop
goes on with the bytes the `read` stored, those past the end of the block
included.  The first argument after `wr` bounds the number of iterations;
`none` means a bound was reached. -/
def relay_loop (src_fd dst_fd : Fd) (size : Int) (rd wr : Nat → Int) :
    Nat → List Byte → Nat → Nat → Option (List Event × Outcome)
  | 0, _, _, _ => none
  | fuel + 1, src, ri, wi =>
    let bytes_read := sys_read (rd ri) (size_t size) src.length
    let ev := Event.read src_fd (size_t size) bytes_read
    if 0 < bytes_read then
      let buf := src.take bytes_read.toNat
      match write_loop dst_fd wr buf bytes_read (bytes_read.toNat + 1) 0 bytes_read wi with
      | none => none
      | some (tw, wi1) =>
        match relay_loop src_fd dst_fd size rd wr fuel (src.drop bytes_read.toNat)
            (ri + 1) wi1 with
        | none => none
        | some (t, o) => some (ev :: (tw ++ t), o)
    else some ([ev], Outcome.returned)

/-- Function `relay_byte_stream(src_fd, dst_fd, size)`, run against a source
that still has `src` to deliver.  `malloc` and `free` of the buffer leave no
call in the result.  Every iteration of the outer loop that goes on consumes
at least one byte of `src`, hence the bound. -/
def relay_byte_stream (src_fd dst_fd : Fd) (size : Int) (rd wr : Nat → Int)
    (src : List Byte) : Option (List Event × Outcome) :=
  relay_loop src_fd dst_fd size rd wr (src.length + 1) src 0 0

/-! ## File serving -/

/-- The fields of `struct stat` the handler reads. -/
structure Stat where
  /-- Field `st_mode`. -/
  st_mode : Nat
  /-- Field `st_size`. -/
  st_size : Int
  deriving DecidableEq, Repr

/-- The field of `struct http_request` the handler reads. -/
structure http_request where
  /-- Field `path`, a C string. -/
  path : CStr
  deriving DecidableEq, Repr

/-- Mask `S_IFMT` of `<sys/stat.h>` (octal 0170000). -/
def S_IFMT : Nat := 61440

/-- File type `S_IFREG` of `<sys/stat.h>` (octal 0100000). -/
def S_IFREG : Nat := 32768

/-- File type `S_IFDIR` of `<sys/stat.h>` (octal 0040000). -/
def S_IFDIR : Nat := 16384

/-- Test `S_ISREG(m)` of `<sys/stat.h>`. -/
def S_ISREG (m : Nat) : Bool := Nat.land m S_IFMT = S_IFREG

/-- Test `S_ISDIR(m)` of `<sys/stat.h>`. -/
def S_ISDIR (m : Nat) : Bool := Nat.land m S_IFMT = S_IFDIR

/-- What the world answers to the calls of the file handler. -/
structure World where
  /-- Result of `http_request_parse(fd)`; `none` is `NULL`. -/
  request : Option http_request
  /-- Contents of the local `struct stat buffer` before the first `stat`: the
  variable is declared without initialiser. -/
  stale : Stat
  /-- Result of `stat(path, &buffer)`: what it stores, or `none` when it fails
  and stores nothing. -/
  stat : CStr → Option Stat
  /-- Result of `open(path, O_RDONLY)`: the descriptor and the bytes readable
  through it, or `none` when it returns -1. -/
  open_file : CStr → Option (Fd × List Byte)
  /-- Answers to the successive `read` calls on an opened file. -/
  rd : Nat → Int
  /-- Answers to the successive `write` calls on the client socket. -/
  wr : Nat → Int
  /-- Result of `opendir(path)`: the names `readdir` then yields, or `none`
  when it returns `NULL`. -/
  opendir : CStr → Option (List CStr)
  /-- Result of `http_get_mime_type(path)`. -/
  mime : CStr → String
  /-- The string `http_format_href(ptr, path, name)` stores at `ptr`. -/
  href : CStr → CStr → List Byte
  /-- Characters found after the last byte copied into the block allocated for
  `index_file`, up to the first NUL: `malloc` does not clear the block. -/
  heap_junk : CStr

/-- Text stored by `snprintf(ptr, 1000000, "%d", size)`. -/
def snprintf_d (size : Int) : String := toString size

/-- Function `serve_file(fd, path, size)`.  When `open` fails `file_fd` is -1
and every `read` on it fails. -/
def serve_file (w : World) (fd : Fd) (path : CStr) (size : Int) :
    Option (List Event × Outcome) :=
  let ptr := snprintf_d size
  let head := [Event.start_response fd 200,
    Event.send_header fd "Content-Type" (w.mime path),
    Event.send_header fd "Content-Length" ptr,
    Event.end_headers fd]
  match w.open_file path with
  | some (file_fd, content) =>
    match relay_byte_stream file_fd fd size w.rd w.wr content with
    | none => none
    | some (t, o) => some (head ++ Event.open_file path file_fd :: t, o)
  | none =>
    match relay_byte_stream (-1) fd size (fun _ => -1) w.wr [] with
    | none => none
    | some (t, o) => some (head ++ Event.open_file path (-1) :: t, o)

/-- The `readdir` loop of `serve_directory`: one `write` of the formatted link
per entry, its return value unused.  `ptr` points to 1000 bytes; the length of
the formatted string is not checked against them. -/
def readdir_loop (w : World) (fd : Fd) (path : CStr) :
    List CStr → Nat → List Event × Outcome
  | [], _ => ([], Outcome.returned)
  | d_name :: rest, wi =>
    let s := w.href path d_name
    let ev := Event.write fd s (sys_write (w.wr wi) s.length)
    let r := readdir_loop w fd path rest (wi + 1)
    (ev :: r.1, r.2)

/-- Function `serve_directory(fd, path)`.  The result of `opendir` is passed to
`readdir` unchecked. -/
def serve_directory (w : World) (fd : Fd) (path : CStr) : List Event × Outcome :=
  let head := [Event.start_response fd 200,
    Event.send_header fd "Content-Type" (w.mime ['.', 'h', 't', 'm', 'l']),
    Event.end_headers fd,
    Event.opendir path]
  match w.opendir path with
  | none => (head, Outcome.null_dir)
  | some entries =>
    let r := readdir_loop w fd path entries 0
    (head ++ r.1, r.2)

/-- Function `strstr(haystack, needle)`: the offset of the first occurrence of
`needle`, or `none` for `NULL`. -/
def strstr : CStr → CStr → Option Nat
  | [], needle => if needle = [] then some 0 else none
  | c :: h, needle =>
    if needle.isPrefixOf (c :: h) then some 0
    else (strstr h needle).map (fun k => k + 1)

/-- Effect of `(void)stat(path, &buffer)` on `buffer`: on failure the buffer
keeps what it held. -/
def stat_into (w : World) (path : CStr) (buffer : Stat) : Stat :=
  (w.stat path).getD buffer

/-- The 400 and 403 replies of `handle_files_request`, each ending in
`close(fd); return;`. -/
def reject (fd : Fd) (status : Nat) : List Event :=
  [Event.start_response fd status,
   Event.send_header fd "Content-Type" "text/html",
   Event.end_headers fd,
   Event.close fd]

/-- The statement `close(fd); return;` that ends `handle_files_request`, reached
only if the reply before it came back. -/
def close_after (fd : Fd) (r : List Event × Outcome) : List Event × Outcome :=
  match r.2 with
  | Outcome.returned => (r.1 ++ [Event.close fd], Outcome.returned)
  | o => (r.1, o)

/-- Function `handle_files_request(fd)`.  `request->path[0]` of the empty string
is the NUL.  `index_file` receives `path` and the 11 characters of
`"/index.html"` but no NUL. -/
def handle_files_request (w : World) (fd : Fd) : Option (List Event × Outcome) :=
  match w.request with
  | none => some (Event.parse fd :: reject fd 400, Outcome.returned)
  | some request =>
    if request.path.headD (Char.ofNat 0) ≠ '/' then
      some (Event.parse fd :: reject fd 400, Outcome.returned)
    else if (strstr request.path ['.', '.']).isSome then
      some (Event.parse fd :: reject fd 403, Outcome.returned)
    else
      let path := '.' :: '/' :: request.path
      let buffer := stat_into w path w.stale
      let pre := [Event.parse fd, Event.stat path]
      if S_ISREG buffer.st_mode then
        match serve_file w fd path (to_int buffer.st_size) with
        | none => none
        | some r => some (close_after fd (pre ++ r.1, r.2))
      else if S_ISDIR buffer.st_mode then
        let index_file := path ++ "/index.html".toList ++ w.heap_junk
        let buffer := stat_into w index_file buffer
        let pre := pre ++ [Event.stat index_file]
        if S_ISREG buffer.st_mode then
          match serve_file w fd index_file (to_int buffer.st_size) with
          | none => none
          | some r => some (close_after fd (pre ++ r.1, r.2))
        else
          let r := serve_directory w fd path
          some (close_after fd (pre ++ r.1, r.2))
      else
        some (close_after fd
          (pre ++ [Event.start_response fd 404, Event.end_headers fd], Outcome.returned))

/-! ## Proxy -/

/-- Value of `ENXIO` in `<errno.h>`. -/
def ENXIO : Int := 6

/-- Function `client_to_server(arg)`: `relay_byte_stream(ptr->client_fd,
ptr->server_fd, REQUEST_MAX_SIZE)`. -/
def client_to_server (arg : THREAD_ARG) (rd wr : Nat → Int) (src : List Byte) :
    Option (List Event × Outcome) :=
  relay_byte_stream arg.client_fd arg.server_fd REQUEST_MAX_SIZE rd wr src

/-- Function `server_to_client(arg)`: `relay_byte_stream(ptr->server_fd,
ptr->client_fd, REQUEST_MAX_SIZE)`. -/
def server_to_client (arg : THREAD_ARG) (rd wr : Nat → Int) (src : List Byte) :
    Option (List Event × Outcome) :=
  relay_byte_stream arg.server_fd arg.client_fd REQUEST_MAX_SIZE rd wr src

/-- What a thread created on `start_routine` with argument `arg` does. -/
def StartRoutine.run (start_routine : StartRoutine) (arg : THREAD_ARG)
    (rd wr : Nat → Int) (src : List Byte) : Option (List Event × Outcome) :=
  match start_routine with
  | StartRoutine.client_to_server => HttpServer.client_to_server arg rd wr src
  | StartRoutine.server_to_client => HttpServer.server_to_client arg rd wr src

/-- What the world answers to the calls of the proxy handler. -/
structure ProxyWorld where
  /-- Whether `gethostbyname2` returned an entry (`false` is `NULL`). -/
  dns_found : Bool
  /-- Return value of `socket`. -/
  socket : Fd
  /-- Value of `errno` read by `exit(errno)`. -/
  errno : Int
  /-- Return value of `connect`. -/
  connect : Int

/-- Function `handle_proxy_request(fd)`: the calls issued by the thread that
runs the handler, and how it ends.  Text printed to `stdout` and `stderr` leaves
no call in the result.  The two pumps run in their own threads; what each does
is `StartRoutine.run`. -/
def handle_proxy_request (w : ProxyWorld) (fd : Fd) : List Event × Outcome :=
  let target_fd := w.socket
  let t0 := [Event.gethostbyname, Event.socket target_fd]
  if target_fd = -1 then
    (t0 ++ [Event.close fd], Outcome.exited w.errno)
  else if !w.dns_found then
    (t0 ++ [Event.close target_fd, Event.close fd], Outcome.exited ENXIO)
  else
    let connection_status := w.connect
    let t1 := t0 ++ [Event.connect target_fd connection_status]
    if connection_status < 0 then
      (t1 ++ [Event.parse fd,
              Event.start_response fd 502,
              Event.send_header fd "Content-Type" "text/html",
              Event.end_headers fd,
              Event.close target_fd,
              Event.close fd], Outcome.returned)
    else
      let arg : THREAD_ARG := { server_fd := fd, client_fd := target_fd }
      (t1 ++ [Event.pthread_create 1 StartRoutine.client_to_server arg,
              Event.pthread_create 2 StartRoutine.server_to_client arg,
              Event.pthread_join 1,
              Event.pthread_join 2], Outcome.returned)

/-! ## Tests on a run's calls -/

/-- Recogniser of a `close` call. -/
def Event.isClose : Event → Bool
  | Event.close _ => true
  | _ => false

/-- Number of `close(fd)` calls in a run. -/
def closes (fd : Fd) (t : List Event) : Nat := t.count (Event.close fd)

/-- No `write` that returned an error is directly followed by another `write`. -/
def no_write_after_error : List Event → Bool
  | [] => true
  | [_] => true
  | e :: e1 :: t => !(e.isWriteError && e1.isWrite) && no_write_after_error (e1 :: t)

/-! ## Sample worlds -/

/-- A world in which nothing is found: no request parses, every `stat`, `open`
and `opendir` fails, and the local `buffer` happens to hold zeros. -/
def quiet_world : World where
  request := none
  stale := { st_mode := 0, st_size := 0 }
  stat := fun _ => none
  open_file := fun _ => none
  rd := fun _ => 0
  wr := fun _ => 0
  opendir := fun _ => none
  mime := fun _ => "text/plain"
  href := fun _ _ => []
  heap_junk := []

/-- A request for `/big`, a regular file of 8193 bytes that reads and writes
in full. -/
def big_file_world : World :=
  { quiet_world with
    request := some { path := ['/', 'b', 'i', 'g'] }
    stat := fun p => if p = ['.', '/', '/', 'b', 'i', 'g'] then
      some { st_mode := S_IFREG, st_size := 8193 } else none
    open_file := fun p => if p = ['.', '/', '/', 'b', 'i', 'g'] then
      some (5, List.replicate 8193 0) else none
    rd := fun _ => 8193
    wr := fun _ => 8193 }

/-- A request whose path is `../x`. -/
def dotdot_world : World :=
  { quiet_world with request := some { path := ['.', '.', '/', 'x'] } }

/-- A request whose path is `/../x`. -/
def slash_dotdot_world : World :=
  { quiet_world with request := some { path := ['/', '.', '.', '/', 'x'] } }

/-- A request whose path is `x`. -/
def no_slash_world : World :=
  { quiet_world with request := some { path := ['x'] } }

/-- A request for `/none`, where nothing exists, made when the stack slot of the
local `buffer` holds what `stat` stored for a regular file of three bytes (mode
octal 0100644), as it does after an earlier call of the handler on the same
thread. -/
def missing_world : World :=
  { quiet_world with
    request := some { path := ['/', 'n', 'o', 'n', 'e'] }
    stale := { st_mode := 33188, st_size := 3 } }

/-- A request for `/a`, a regular file of three bytes read in full and written
two bytes at a time. -/
def small_file_world : World :=
  { quiet_world with
    request := some { path := ['/', 'a'] }
    stat := fun p => if p = ['.', '/', '/', 'a'] then
      some { st_mode := S_IFREG, st_size := 3 } else none
    open_file := fun p => if p = ['.', '/', '/', 'a'] then some (5, [7, 8, 9]) else none
    rd := fun _ => 8192
    wr := fun _ => 2 }

/-- The upstream name does not resolve. -/
def dns_failure_world : ProxyWorld :=
  { dns_found := false, socket := 5, errno := 0, connect := 0 }

/-- The upstream refuses the connection. -/
def connect_failure_world : ProxyWorld :=
  { dns_found := true, socket := 5, errno := 0, connect := -1 }

/-- The upstream accepts the connection. -/
def connect_success_world : ProxyWorld :=
  { dns_found := true, socket := 5, errno := 0, connect := 0 }

/-! ## serve_forever -/

/-- The four builds of `httpserver.c`, each selected by defining one macro. -/
inductive BuildVariant where
  /-- Built with `BASICSERVER` defined. -/
  | BASICSERVER
  /-- Built with `FORKSERVER` defined. -/
  | FORKSERVER
  /-- Built with `THREADSERVER` defined. -/
  | THREADSERVER
  /-- Built with `POOLSERVER` defined. -/
  | POOLSERVER
  deriving DecidableEq, Repr

/-- Calls issued by `serve_forever`, in program order.  Text printed with
`printf` and `perror` leaves no call. -/
inductive ServerEvent where
  /-- Call `socket(PF_INET, SOCK_STREAM, 0)` and the descriptor it returned. -/
  | socket (ret : Fd)
  /-- Call `setsockopt(*socket_number, ...)` and its return value. -/
  | setsockopt (fd : Fd) (ret : Int)
  /-- Call `bind(*socket_number, ...)` and its return value. -/
  | bind (fd : Fd) (ret : Int)
  /-- Call `listen(*socket_number, 1024)` and its return value. -/
  | listen (fd : Fd) (ret : Int)
  /-- Call `init_thread_pool(num_threads, request_handler)`. -/
  | init_thread_pool (num_threads : Int)
  /-- Call `accept(*socket_number, ...)` and its return value. -/
  | accept (fd : Fd) (ret : Int)
  /-- Call `request_handler(client_socket_number)`. -/
  | request_handler (fd : Fd)
  deriving DecidableEq, Repr

/-- Where a run of `serve_forever` stands once the world's answers are used up. -/
inductive ServerEnd where
  /-- The server is in the accept loop, waiting in the next `accept`. -/
  | in_accept
  /-- The process has ended: in `exit(status)`, or inside a handler. -/
  | ended (o : Outcome)
  deriving DecidableEq, Repr

/-- What the world answers to the calls of `serve_forever`. -/
structure ServerWorld where
  /-- Return value of `socket`. -/
  socket : Fd
  /-- Return value of `setsockopt`. -/
  setsockopt : Int
  /-- Return value of `bind`. -/
  bind : Int
  /-- Return value of `listen`. -/
  listen : Int
  /-- Value of `errno` read by `exit(errno)`. -/
  errno : Int
  /-- Return values of the successive `accept` calls, as far as the run is
  followed. -/
  accepts : List Int
  /-- How a call `request_handler(fd)` ends. -/
  handler : Fd → Outcome

/-- What one iteration of the accept loop does with an accepted connection: the
text selected by the build macro.  In the `FORKSERVER`, `THREADSERVER` and
`POOLSERVER` builds the text between `PART n BEGIN` and `PART n END` is empty.
The result is the calls issued and how the iteration ends. -/
def dispatch (v : BuildVariant) (request_handler : Fd → Outcome)
    (client_socket_number : Fd) : List ServerEvent × Outcome :=
  match v with
  | BuildVariant.BASICSERVER =>
    ([ServerEvent.request_handler client_socket_number],
      request_handler client_socket_number)
  | BuildVariant.FORKSERVER => ([], Outcome.returned)
  | BuildVariant.THREADSERVER => ([], Outcome.returned)
  | BuildVariant.POOLSERVER => ([], Outcome.returned)

/-- The loop `while (1)` of `serve_forever`, for the `accept` answers given. -/
def accept_loop (v : BuildVariant) (request_handler : Fd → Outcome) (socket_number : Fd) :
    List Int → List ServerEvent × ServerEnd
  | [] => ([], ServerEnd.in_accept)
  | client_socket_number :: rest =>
    let ev := ServerEvent.accept socket_number client_socket_number
    if client_socket_number < 0 then
      let r := accept_loop v request_handler socket_number rest
      (ev :: r.1, r.2)
    else
      let d := dispatch v request_handler client_socket_number
      if d.2 = Outcome.returned then
        let r := accept_loop v request_handler socket_number rest
        (ev :: (d.1 ++ r.1), r.2)
      else (ev :: d.1, ServerEnd.ended d.2)

/-- Function `serve_forever(socket_number, request_handler)`.  The return values
of `bind` and `listen` are not looked at. -/
def serve_forever (v : BuildVariant) (w : ServerWorld) (num_threads : Int) :
    List ServerEvent × ServerEnd :=
  let socket_number := w.socket
  if socket_number = -1 then
    ([ServerEvent.socket socket_number], ServerEnd.ended (Outcome.exited w.errno))
  else if w.setsockopt = -1 then
    ([ServerEvent.socket socket_number, ServerEvent.setsockopt socket_number w.setsockopt],
      ServerEnd.ended (Outcome.exited w.errno))
  else
    let setup := [ServerEvent.socket socket_number,
      ServerEvent.setsockopt socket_number w.setsockopt,
      ServerEvent.bind socket_number w.bind,
      ServerEvent.listen socket_number w.listen]
    let pool := if v = BuildVariant.POOLSERVER then
      [ServerEvent.init_thread_pool num_threads] else []
    let r := accept_loop v w.handler socket_number w.accepts
    (setup ++ pool ++ r.1, r.2)

/-! ## main -/

/-- The two functions `main` can pass to `serve_forever`. -/
inductive Handler where
  /-- Function `handle_files_request`. -/
  | handle_files_request
  /-- Function `handle_proxy_request`. -/
  | handle_proxy_request
  deriving DecidableEq, Repr

/-- The global configuration variables, and the local `request_handler` of
`main`.  `none` is `NULL`. -/
structure Config where
  /-- Local `request_handler`. -/
  request_handler : Option Handler
  /-- Global `server_files_directory`. -/
  server_files_directory : Option CStr
  /-- Global `server_proxy_hostname`. -/
  server_proxy_hostname : Option CStr
  /-- Global `server_proxy_port`. -/
  server_proxy_port : Int
  /-- Global `server_port`. -/
  server_port : Int
  /-- Global `num_threads`. -/
  num_threads : Int
  deriving DecidableEq, Repr

/-- The configuration when the argument loop of `main` starts: globals are
zero, `server_port = 8000`, `request_handler = NULL`. -/
def initial_config : Config :=
  { request_handler := none, server_files_directory := none,
    server_proxy_hostname := none, server_proxy_port := 0,
    server_port := 8000, num_threads := 0 }

/-- How `main` ends. -/
inductive MainEnd where
  /-- Call `exit_with_usage()`: the usage text, then `exit(EXIT_SUCCESS)`. -/
  | exit_with_usage
  /-- Call `serve_forever(&server_fd, request_handler)` with this configuration. -/
  | serve_forever (cfg : Config)
  deriving DecidableEq, Repr

/-- The option `--files`. -/
def opt_files : CStr := "--files".toList

/-- The option `--proxy`. -/
def opt_proxy : CStr := "--proxy".toList

/-- The option `--port`. -/
def opt_port : CStr := "--port".toList

/-- The option `--num-threads`. -/
def opt_num_threads : CStr := "--num-threads".toList

/-- The option `--help`. -/
def opt_help : CStr := "--help".toList

/-- The argument loop of `main`, on `argv[i], argv[i+1], ...`; `none` is a call
of `exit_with_usage()`.  `argv[++i]` past the last argument is the `NULL` that
ends `argv`.  `atoi` is the C library function. -/
def parse_args (atoi : CStr → Int) : Config → List CStr → Option Config
  | cfg, [] => some cfg
  | cfg, a :: rest =>
    if a = opt_files then
      match rest with
      | [] => none
      | dir :: rest1 =>
        parse_args atoi { cfg with
          request_handler := some Handler.handle_files_request,
          server_files_directory := some dir } rest1
    else if a = opt_proxy then
      match rest with
      | [] => none
      | proxy_target :: rest1 =>
        if ':' ∈ proxy_target then
          parse_args atoi { cfg with
            request_handler := some Handler.handle_proxy_request,
            server_proxy_hostname := some (proxy_target.takeWhile (fun c => c != ':')),
            server_proxy_port :=
              atoi ((proxy_target.dropWhile (fun c => c != ':')).tail) } rest1
        else
          parse_args atoi { cfg with
            request_handler := some Handler.handle_proxy_request,
            server_proxy_hostname := some proxy_target,
            server_proxy_port := 80 } rest1
    else if a = opt_port then
      match rest with
      | [] => none
      | server_port_string :: rest1 =>
        parse_args atoi { cfg with server_port := atoi server_port_string } rest1
    else if a = opt_num_threads then
      match rest with
      | [] => none
      | num_threads_str :: rest1 =>
        if atoi num_threads_str < 1 then none
        else parse_args atoi { cfg with num_threads := atoi num_threads_str } rest1
    else if a = opt_help then none
    else none

/-- Function `main`, up to the call of `serve_forever`; `args` is `argv[1]` to
`argv[argc-1]`.  The check of `num_threads` is compiled in the `POOLSERVER`
build only.  The call `chdir(server_files_directory)` leaves no trace here. -/
def main (atoi : CStr → Int) (v : BuildVariant) (args : List CStr) : MainEnd :=
  match parse_args atoi initial_config args with
  | none => MainEnd.exit_with_usage
  | some cfg =>
    if cfg.server_files_directory = none ∧ cfg.server_proxy_hostname = none then
      MainEnd.exit_with_usage
    else if v = BuildVariant.POOLSERVER ∧ cfg.num_threads < 1 then
      MainEnd.exit_with_usage
    else MainEnd.serve_forever cfg

end HttpServer

/-! # hw-http: the work queue -/

namespace WorkQueue

/-- Modelled from the spec: the work queue (`wq.h`, `wq.c`) is not among the
sources; `httpserver.c` only declares `wq_t work_queue`.  The spec calls it an
unbounded FIFO of pending connection descriptors. -/
structure wq_t where
  /-- The queued items, head first. -/
  items : List Int
  deriving DecidableEq, Repr

/-- Modelled from the spec: the queue before any push. -/
def empty : wq_t := { items := [] }

/-- Modelled from the spec: "`push(item)` appends to the tail". -/
def push (q : wq_t) (item : Int) : wq_t := { items := q.items ++ [item] }

/-- Modelled from the spec: "`popBlocking()` removes and returns the head ...
blocking the caller ... until an item is available"; `none` stands for a caller
that blocks on the empty queue. -/
def popBlocking (q : wq_t) : Option (Int × wq_t) :=
  match q.items with
  | [] => none
  | head :: rest => some (head, { items := rest })

/-- A sequence of pushes, in order. -/
def push_all (q : wq_t) : List Int → wq_t
  | [] => q
  | item :: rest => push_all (push q item) rest

/-- A sequence of `n` pops: the items returned, in order, and the queue left;
`none` if one of the pops blocks. -/
def pop_n : Nat → wq_t → Option (List Int × wq_t)
  | 0, q => some ([], q)
  | n + 1, q =>
    match popBlocking q with
    | none => none
    | some (item, q1) =>
      match pop_n n q1 with
      | none => none
      | some (items, q2) => some (item :: items, q2)

end WorkQueue

/-! # hw-intro/words/word_count.c -/

namespace Words

/-- A node of the list: fields `word` and `count` of `struct word_count`; the
field `next` is the rest of the Lean list, and `NULL` is the empty list. -/
structure WordCount where
  /-- Field `word`. -/
  word : HttpServer.CStr
  /-- Field `count` (`int`). -/
  count : Int
  deriving DecidableEq, Repr

/-- Function `init_words(wclist)`: the return value and the new `*wclist`. -/
def init_words : Int × List WordCount := (0, [])

/-- The loop of `len_words`, with `ptr` at a node whose `next` is the list
given:

    while(ptr->next != NULL) { ptr = ptr->next; len++; }
-/
def len_words_loop : List WordCount → Nat → Nat
  | [], len => len
  | _ :: next, len => len_words_loop next (len + 1)

/-- Function `len_words(wchead)`.  The loop starts by reading `ptr->next` with
`ptr = wchead`; `none` is that read through a `NULL` pointer. -/
def len_words : List WordCount → Option Nat
  | [] => none
  | _ :: next => some (len_words_loop next 0)

/-- Function `find_word(wchead, word)`: the position of the node returned, or
`none` for `NULL`. -/
def find_word : List WordCount → HttpServer.CStr → Option Nat
  | [], _ => none
  | ptr :: next, word =>
    if ptr.word = word then some 0
    else (find_word next word).map (fun k => k + 1)

/-- The statement `ptr->count = ptr->count + 1` on the node at position `k`.
The sum is an `int`; it is taken to wrap at 32 bits. -/
def increment_count : List WordCount → Nat → List WordCount
  | [], _ => []
  | ptr :: next, 0 => { ptr with count := HttpServer.to_int (ptr.count + 1) } :: next
  | ptr :: next, k + 1 => ptr :: increment_count next k

/-- Function `add_word(wclist, word)`: the return value and the new `*wclist`.
Both allocations are taken to succeed. -/
def add_word (wclist : List WordCount) (word : HttpServer.CStr) : Int × List WordCount :=
  match find_word wclist word with
  | some k => (0, increment_count wclist k)
  | none =>
    let ptr : WordCount := { word := word, count := 1 }
    match wclist with
    | [] => (0, [ptr])
    | head :: next => (0, head :: ptr :: next)

/-- The count recorded for `word`: the count of the node `find_word` returns. -/
def recorded : List WordCount → HttpServer.CStr → Option Int
  | [], _ => none
  | ptr :: next, word => if ptr.word = word then some ptr.count else recorded next word

/-- The list built by `init_words` followed by one `add_word` per word given,
in the order given. -/
def build (words : List HttpServer.CStr) : List WordCount :=
  words.foldl (fun wclist word => (add_word wclist word).2) init_words.2

end Words

/-! # hw-shell/shell.c -/

namespace Shell

/-- The names in `cmd_table`, in order. -/
def cmd_table : List HttpServer.CStr :=
  ["?".toList, "exit".toList, "pwd".toList, "cd".toList]

/-- Function `lookup(cmd)`: the index in `cmd_table`, or -1.  `none` is `NULL`. -/
def lookup (cmd : Option HttpServer.CStr) : Int :=
  match cmd with
  | none => -1
  | some c => if cmd_table.indexOf c < cmd_table.length then cmd_table.indexOf c else -1

/-- Structure `arg_cnt_t`.  Each array has 10 elements. -/
structure arg_cnt_t where
  /-- Field `inCnt`. -/
  inCnt : Nat
  /-- Field `inArray`. -/
  inArray : List Int
  /-- Field `outCnt`. -/
  outCnt : Nat
  /-- Field `outArray`. -/
  outArray : List Int
  /-- Field `pipeCnt`. -/
  pipeCnt : Nat
  /-- Field `pipeArray`. -/
  pipeArray : List Int
  deriving DecidableEq, Repr

/-- The reset of `arg_cnt` at the start of every line. -/
def arg_cnt_reset : arg_cnt_t :=
  { inCnt := 0, inArray := List.replicate 10 0,
    outCnt := 0, outArray := List.replicate 10 0,
    pipeCnt := 1, pipeArray := List.replicate 10 0 }

/-- Step 1 of `main`: the loop over the tokens, at token `i`.  `args` collects
`args[0]` to `args[i-1]`, with `none` for `NULL`.  `none` as result is a store
past the tenth element of one of the arrays. -/
def step1_loop : List HttpServer.CStr → Nat → arg_cnt_t → List (Option HttpServer.CStr) →
    Option (arg_cnt_t × List (Option HttpServer.CStr))
  | [], _, arg_cnt, args => some (arg_cnt, args)
  | tok :: rest, i, arg_cnt, args =>
    if tok.headD (Char.ofNat 0) = '|' then
      if 10 ≤ arg_cnt.pipeCnt then none
      else step1_loop rest (i + 1)
        { arg_cnt with pipeArray := arg_cnt.pipeArray.set arg_cnt.pipeCnt i,
                       pipeCnt := arg_cnt.pipeCnt + 1 }
        (args ++ [none])
    else if tok.headD (Char.ofNat 0) = '<' then
      if 10 ≤ arg_cnt.inCnt then none
      else step1_loop rest (i + 1)
        { arg_cnt with inArray := arg_cnt.inArray.set arg_cnt.inCnt i,
                       inCnt := arg_cnt.inCnt + 1 }
        (args ++ [some tok])
    else if tok.headD (Char.ofNat 0) = '>' then
      if 10 ≤ arg_cnt.outCnt then none
      else step1_loop rest (i + 1)
        { arg_cnt with outArray := arg_cnt.outArray.set arg_cnt.outCnt i,
                       outCnt := arg_cnt.outCnt + 1 }
        (args ++ [some tok])
    else step1_loop rest (i + 1) arg_cnt (args ++ [some tok])

/-- Step 1 of `main` for a tokenised line: the counters, and the array `args`
of `tokens_get_length(tokens) + 1` pointers, the last one `NULL`. -/
def step1 (tokens : List HttpServer.CStr) :
    Option (arg_cnt_t × List (Option HttpServer.CStr)) :=
  match step1_loop tokens 0 arg_cnt_reset [] with
  | none => none
  | some (arg_cnt, args) => some (arg_cnt, args ++ [none])

/-- Step 2 of `main`: the pairs `(start, end)` passed to `identify_and_execute`
for `i = 1, ..., pipeCnt`: `pipeArray[i-1]` and `pipeArray[i]`, and for the
last one `pipeArray[pipeCnt-1]` and the number of tokens. -/
def segments (arg_cnt : arg_cnt_t) (length : Nat) : List (Int × Int) :=
  (List.range arg_cnt.pipeCnt).map (fun k =>
    (arg_cnt.pipeArray.getD k 0,
     if k + 1 ≠ arg_cnt.pipeCnt then arg_cnt.pipeArray.getD (k + 1) 0 else (length : Int)))

/-- How the scan loop of `identify_and_execute` ends. -/
inductive ScanEnd where
  /-- The loop condition `lcl_start != lcl_end` became false. -/
  | done
  /-- The loop read `args[index]` outside the allocated array. -/
  | out_of_bounds (index : Int)
  /-- The loop evaluated `*args[index]` where `args[index]` is `NULL`. -/
  | null_pointer (index : Int)
  /-- The iteration bound of the model was reached. -/
  | bound_reached
  deriving DecidableEq, Repr

/-- The scan loop of `identify_and_execute`:

    while (lcl_start != lcl_end) {
      if (*args[lcl_end] == '<') { fd = open(args[lcl_end+1], O_RDONLY); ...
        args[lcl_end] = NULL; }
      else if (*args[lcl_end] == '>') { fd = open(args[lcl_end+1], ...); ...
        args[lcl_end] = NULL; }
      lcl_end--;
    }

The result lists the indices at which `args` is read, in order, and how the
loop ends.  The calls `open` and `dup2` have no part in the indices and are
left out. -/
def scan_loop (lcl_start : Int) :
    Nat → Int → List (Option HttpServer.CStr) → List Int × ScanEnd
  | 0, _, _ => ([], ScanEnd.bound_reached)
  | fuel + 1, lcl_end, args =>
    if lcl_start = lcl_end then ([], ScanEnd.done)
    else if lcl_end < 0 ∨ (args.length : Int) ≤ lcl_end then
      ([lcl_end], ScanEnd.out_of_bounds lcl_end)
    else
      match args.getD lcl_end.toNat none with
      | none => ([lcl_end], ScanEnd.null_pointer lcl_end)
      | some tok =>
        if tok.headD (Char.ofNat 0) = '<' ∨ tok.headD (Char.ofNat 0) = '>' then
          if (args.length : Int) ≤ lcl_end + 1 then
            ([lcl_end, lcl_end + 1], ScanEnd.out_of_bounds (lcl_end + 1))
          else
            let r := scan_loop lcl_start fuel (lcl_end - 1) (args.set lcl_end.toNat none)
            (lcl_end :: (lcl_end + 1) :: r.1, r.2)
        else
          let r := scan_loop lcl_start fuel (lcl_end - 1) args
          (lcl_end :: r.1, r.2)

/-- Function `identify_and_execute(start, end, args)` up to the end of its scan
loop.  Every iteration that goes on reads inside the array and moves `lcl_end`
down by one, hence the bound. -/
def identify_and_execute (start end_ : Int) (args : List (Option HttpServer.CStr)) :
    List Int × ScanEnd :=
  let lcl_end := end_ - 1
  let lcl_start := if start = 0 then start else start + 1
  scan_loop lcl_start (args.length + 1) lcl_end args

/-- The scans `main` starts for a tokenised line that is no built-in: one per
pair of `segments`, each on the `args` of step 1 (every child process has its
own copy).  `none` when the line is a built-in or step 1 stores past an array.
For a line without tokens `tokens_get_token(tokens, 0)` is `NULL`, which
`lookup` answers with -1. -/
def scans (tokens : List HttpServer.CStr) : Option (List (List Int × ScanEnd)) :=
  if 0 ≤ lookup tokens.head? then none
  else
    match step1 tokens with
    | none => none
    | some (arg_cnt, args) =>
      some ((segments arg_cnt tokens.length).map
        (fun se => identify_and_execute se.1 se.2 args))

end Shell

/-! # hw-list/pwords.c -/

namespace Pwords

/-- The number of elements of `pthread_t threads[5]` in `main`. -/
def THREADS_CAPACITY : Nat := 5

/-- Calls issued by `main` of `pwords.c`, in program order.  Text printed with
`printf`, and the sorting and printing of the counts, leave no call. -/
inductive PEvent where
  /-- Call `count_words(&word_counts, stdin)`. -/
  | count_words_stdin
  /-- Call `pthread_create(&threads[index], NULL, wordCountWrapper, a)` and its
  return value. -/
  | pthread_create (index : Nat) (err : Int)
  /-- Call `pthread_join(threads[index], NULL)`. -/
  | pthread_join (index : Nat)
  deriving DecidableEq, Repr

/-- How a run of `main` ends. -/
inductive PEnd where
  /-- The statement `return 0`. -/
  | returned
  /-- The call `exit(status)`. -/
  | exited (status : Int)
  /-- A thread handle was stored in `threads[index]`, outside the array. -/
  | out_of_bounds (index : Nat)
  /-- The iteration bound of the model was reached. -/
  | bound_reached
  deriving DecidableEq, Repr

/-- The index `i-1` an event uses in `threads`, if it uses one. -/
def PEvent.index : PEvent → Option Nat
  | PEvent.count_words_stdin => none
  | PEvent.pthread_create index _ => some index
  | PEvent.pthread_join index => some index

/-- The first loop of `main`, at `i`:

    for (int i = 1; i<argc; i++) {
      ...
      int err = pthread_create(&threads[i-1], NULL, wordCountWrapper, (void*)a);
      if (err) { ...; exit(-1); }
    }

`errs k` is what the call for `threads[k]` returns; a call that returns 0 has
stored a handle in `threads[i-1]`.  The first argument after `argc` bounds the
number of iterations.  The result is the calls issued and, if the loop does not
run to its end, how the run ends. -/
def create_loop (errs : Nat → Int) (argc : Nat) : Nat → Nat → List PEvent × Option PEnd
  | 0, _ => ([], some PEnd.bound_reached)
  | fuel + 1, i =>
    if i < argc then
      let err := errs (i - 1)
      let ev := PEvent.pthread_create (i - 1) err
      if err ≠ 0 then ([ev], some (PEnd.exited (-1)))
      else if THREADS_CAPACITY ≤ i - 1 then ([ev], some (PEnd.out_of_bounds (i - 1)))
      else
        let r := create_loop errs argc fuel (i + 1)
        (ev :: r.1, r.2)
    else ([], none)

/-- The second loop of `main`: `pthread_join(threads[i-1], NULL)` for
`i = 1, ..., argc-1`. -/
def join_loop (argc : Nat) : List PEvent :=
  (List.range (argc - 1)).map (fun k => PEvent.pthread_join k)

/-- Function `main(argc, argv)` of `pwords.c`.  The first loop runs at most
`argc` times, hence the bound. -/
def main (errs : Nat → Int) (argc : Nat) : List PEvent × PEnd :=
  if argc ≤ 1 then ([PEvent.count_words_stdin], PEnd.returned)
  else
    match create_loop errs argc (argc + 1) 1 with
    | (t, some e) => (t, e)
    | (t, none) => (t ++ join_loop argc, PEnd.returned)

end Pwords

namespace HttpServer

/-! ## More tests and sample worlds -/

/-- Recogniser of a `read` call on `fd`. -/
def Event.isReadFrom (fd : Fd) : Event → Bool
  | Event.read fd1 _ _ => fd1 = fd
  | _ => false

/-- Recogniser of a call `request_handler(fd)`. -/
def ServerEvent.isHandler : ServerEvent → Bool
  | ServerEvent.request_handler _ => true
  | _ => false

/-- A request for `/d`, a directory that holds a regular file `index.html` of
three bytes, made when the byte after the characters copied into `index_file`
is an `x` and the one after it a NUL. -/
def index_junk_world : World :=
  { quiet_world with
    request := some { path := ['/', 'd'] }
    stat := fun p =>
      if p = ['.', '/', '/', 'd'] then some { st_mode := S_IFDIR, st_size := 4096 }
      else if p = ".//d/index.html".toList then some { st_mode := S_IFREG, st_size := 3 }
      else none
    open_file := fun p =>
      if p = ".//d/index.html".toList then some (5, [7, 8, 9]) else none
    opendir := fun p =>
      if p = ['.', '/', '/', 'd'] then some ["index.html".toList] else none
    rd := fun _ => 8192
    wr := fun _ => 8192
    heap_junk := ['x'] }

/-- Every `accept` succeeds at once, with descriptor 4, and the handler returns. -/
def one_client_world : ServerWorld :=
  { socket := 3, setsockopt := 0, bind := 0, listen := 0, errno := 0,
    accepts := [4], handler := fun _ => Outcome.returned }

/-- The port is taken: `bind` fails, then `listen` and every `accept` fail. -/
def bind_failure_world : ServerWorld :=
  { socket := 3, setsockopt := 0, bind := -1, listen := -1, errno := 98,
    accepts := [-1, -1], handler := fun _ => Outcome.returned }

/-- A stand-in for `atoi`: every string converts to 8000. -/
def sample_atoi : CStr → Int := fun _ => 8000

/-- Whether a run has a `read` on descriptor `d`. -/
def reads_from (d : Fd) (t : List Event) : Bool := t.any (Event.isReadFrom d)

/-- Whether a run has a `write` on descriptor `d`. -/
def writes_to (d : Fd) (t : List Event) : Bool := t.any (Event.isWriteTo d)

/-- The content of a file of 2^32 bytes. -/
def huge_content : List Byte := List.replicate 4294967296 0

/-- A request for `/huge`, a regular file of 2^32 bytes that reads and writes
without error. -/
def huge_file_world : World :=
  { quiet_world with
    request := some { path := ['/', 'h', 'u', 'g', 'e'] }
    stat := fun p => if p = ['.', '/', '/', 'h', 'u', 'g', 'e'] then
      some { st_mode := S_IFREG, st_size := 4294967296 } else none
    open_file := fun p => if p = ['.', '/', '/', 'h', 'u', 'g', 'e'] then
      some (5, huge_content) else none
    rd := fun _ => 8192
    wr := fun _ => 8192 }

/-- A request for `/d`, a directory that `stat` reports and `opendir` refuses
(no read permission), with no `index.html` to be found in it. -/
def unreadable_dir_world : World :=
  { quiet_world with
    request := some { path := ['/', 'd'] }
    stat := fun p =>
      if p = ['.', '/', '/', 'd'] then some { st_mode := S_IFDIR, st_size := 4096 }
      else none }

/-- The handler of the mode option given last, reading the argument list the
way every list `main` accepts is built: options at the even places, each
followed by its operand.  `seen` is the handler of the mode options before. -/
def last_mode (seen : Option Handler) : List CStr → Option Handler
  | [] => seen
  | [_] => seen
  | a :: _ :: rest =>
    if a = opt_files then last_mode (some Handler.handle_files_request) rest
    else if a = opt_proxy then last_mode (some Handler.handle_proxy_request) rest
    else last_mode seen rest

/-! ## Facts about the relay and the handlers -/

/-- A count within the buffer converts to `size_t` unchanged. -/
theorem size_t_of_small (x : Int) (h0 : 0 ≤ x) (h1 : x ≤ (BUF_SIZE_MAX : Int)) :
    size_t x = x.toNat := by
  unfold size_t BUF_SIZE_MAX at *
  omega

/-- A count that fits `size_t` converts to it unchanged. -/
theorem size_t_of_lt (x : Int) (h0 : 0 ≤ x) (h1 : x < 18446744073709551616) :
    size_t x = x.toNat := by
  unfold size_t
  omega

/-- Every `size_t` is below 2^64. -/
theorem size_t_lt (x : Int) : (size_t x : Int) < 18446744073709551616 := by
  unfold size_t
  omega

/-- The piece a `write` accepted, followed by what is left after it, is what was left before it. -/
theorem take_take_drop_append (buf : List Byte) (ptr k r : Nat) (hk : k ≤ r) :
    ((buf.drop ptr).take r).take k ++ buf.drop (ptr + k) = buf.drop ptr := by
  rw [List.take_take, Nat.min_eq_left hk, ← List.drop_drop]
  exact List.take_append_drop k (buf.drop ptr)

/-- With a destination that answers every `write` with a positive count, the inner loop
ends and the destination accepts exactly the bytes from `ptr` to the end of the chunk.
-/
theorem write_loop_flush (dst_fd : Fd) (wr : Nat → Int) (buf : List Byte) (bytes_read : Int)
    (hbr : bytes_read = buf.length) (hcap : buf.length ≤ BUF_SIZE_MAX)
    (hw : ∀ i, 0 < wr i) :
    ∀ (fuel ptr : Nat) (bytes_remain : Int) (wi : Nat), 0 ≤ bytes_remain →
      ptr + bytes_remain.toNat = buf.length → bytes_remain.toNat < fuel →
      ∃ t wi1, write_loop dst_fd wr buf bytes_read fuel ptr bytes_remain wi = some (t, wi1)
        ∧ delivered dst_fd t = buf.drop ptr ∧ ∀ e ∈ t, Event.isWriteTo dst_fd e = true := by
  intro fuel
  induction fuel with
  | zero => intro ptr rem wi _ _ h; omega
  | succ fuel ih =>
    intro ptr rem wi h0 hinv hfuel
    have hrem : rem ≤ (BUF_SIZE_MAX : Int) := by omega
    have hst : size_t rem = rem.toNat := size_t_of_small rem h0 hrem
    have hwi := hw wi
    have hbw : sys_write (wr wi) (size_t rem) = min (wr wi) rem := by
      unfold sys_write
      rw [hst, if_neg (by omega)]
      congr 1
      omega
    unfold write_loop
    simp only [hbw]
    by_cases hpos : 0 < min (wr wi) rem
    · rw [if_pos hpos]
      by_cases hfull : min (wr wi) rem = bytes_read
      · rw [if_pos hfull]
        refine ⟨_, _, rfl, ?_, ?_⟩
        · have hp : ptr = 0 := by omega
          have hr : rem.toNat = buf.length := by omega
          subst hp
          simp only [delivered, hpos, and_self, if_true, List.drop_zero, List.append_nil, hst]
          rw [hfull, hbr, hr]
          simp
        · intro e he
          simp only [List.mem_singleton] at he
          subst he
          simp [Event.isWriteTo]
      · rw [if_neg hfull]
        obtain ⟨t, wi1, ht, hd, hall⟩ := ih (ptr + (min (wr wi) rem).toNat) (rem - min (wr wi) rem)
          (wi + 1) (by omega) (by omega) (by omega)
        rw [ht]
        refine ⟨_, _, rfl, ?_, ?_⟩
        · simp only [delivered, hpos, and_self, if_true, hd, hst]
          exact take_take_drop_append buf ptr _ _ (by omega)
        · intro e he
          rcases List.mem_cons.1 he with h | h
          · subst h; simp [Event.isWriteTo]
          · exact hall e h
    · rw [if_neg hpos]
      refine ⟨_, _, rfl, ?_, ?_⟩
      · have hr : rem.toNat = 0 := by omega
        have hp : buf.length ≤ ptr := by omega
        simp only [delivered, hpos, and_false, if_false]
        rw [List.drop_eq_nil_of_le hp]
      · intro e he
        simp only [List.mem_singleton] at he
        subst he
        simp [Event.isWriteTo]

/-- Extending a run at the front keeps `no_write_after_error` when the new call is no
failed `write`, or the run does not start with a `write`. -/
theorem no_write_after_error_cons (e : Event) (t : List Event)
    (h1 : e.isWriteError = false ∨ ∀ e1 ∈ t.head?, Event.isWrite e1 = false)
    (h2 : no_write_after_error t = true) : no_write_after_error (e :: t) = true := by
  cases t with
  | nil => rfl
  | cons e1 t =>
    simp only [no_write_after_error, Bool.and_eq_true, Bool.not_eq_true', Bool.and_eq_false_iff]
    refine ⟨?_, h2⟩
    rcases h1 with h | h
    · exact Or.inl h
    · exact Or.inr (h e1 (by simp))

/-- A `write` accepts no more than it is offered. -/
theorem sys_write_le (w : Int) (count : Nat) : sys_write w count ≤ count := by
  unfold sys_write
  split <;> omega

/-- A `read` returns no more than it is asked for. -/
theorem sys_read_le_count (r : Int) (count avail : Nat) : sys_read r count avail ≤ count := by
  unfold sys_read
  split <;> omega

/-- A `read` returns no more than the source has left. -/
theorem sys_read_le_avail (r : Int) (count avail : Nat) : sys_read r count avail ≤ avail := by
  unfold sys_read
  split <;> omega

/-- The inner loop ends for every behaviour of the destination, and a `write`
that fails is the last call it issues. -/
theorem write_loop_ends (dst_fd : Fd) (wr : Nat → Int) (buf : List Byte) (bytes_read : Int) :
    ∀ (fuel ptr : Nat) (bytes_remain : Int) (wi : Nat), 0 ≤ bytes_remain →
      bytes_remain < 18446744073709551616 → bytes_remain.toNat < fuel →
      ∃ t wi1, write_loop dst_fd wr buf bytes_read fuel ptr bytes_remain wi = some (t, wi1)
        ∧ ∀ rest : List Event, (∀ e1 ∈ rest.head?, Event.isWrite e1 = false) →
            no_write_after_error rest = true → no_write_after_error (t ++ rest) = true := by
  intro fuel
  induction fuel with
  | zero => intro ptr rem wi _ _ h; omega
  | succ fuel ih =>
    intro ptr rem wi h0 hcap hfuel
    have hst : size_t rem = rem.toNat := size_t_of_lt rem h0 hcap
    have hle := sys_write_le (wr wi) (size_t rem)
    unfold write_loop
    simp only []
    by_cases hpos : 0 < sys_write (wr wi) (size_t rem)
    · rw [if_pos hpos]
      by_cases hfull : sys_write (wr wi) (size_t rem) = bytes_read
      · rw [if_pos hfull]
        refine ⟨_, _, rfl, ?_⟩
        intro rest hr1 hr2
        exact no_write_after_error_cons _ _ (Or.inr hr1) hr2
      · rw [if_neg hfull]
        obtain ⟨t, wi1, ht, hrest⟩ := ih (ptr + (sys_write (wr wi) (size_t rem)).toNat)
          (rem - sys_write (wr wi) (size_t rem)) (wi + 1) (by omega) (by omega) (by omega)
        rw [ht]
        refine ⟨_, _, rfl, ?_⟩
        intro rest hr1 hr2
        refine no_write_after_error_cons _ _ (Or.inl ?_) (hrest rest hr1 hr2)
        simp only [Event.isWriteError, decide_eq_false_iff_not, not_lt]
        omega
    · rw [if_neg hpos]
      refine ⟨_, _, rfl, ?_⟩
      intro rest hr1 hr2
      exact no_write_after_error_cons _ _ (Or.inr hr1) hr2

/-- The outer loop ends for every behaviour of source and destination, with the
plain return, after a `read` that returned zero or an error. -/
theorem relay_loop_ends (src_fd dst_fd : Fd) (size : Int) (rd wr : Nat → Int) :
    ∀ (fuel : Nat) (src : List Byte) (ri wi : Nat), src.length < fuel →
      ∃ t, relay_loop src_fd dst_fd size rd wr fuel src ri wi = some (t, Outcome.returned)
        ∧ (∀ e1 ∈ t.head?, Event.isWrite e1 = false)
        ∧ no_write_after_error t = true
        ∧ ∃ r, r ≤ 0 ∧ t.getLast? = some (Event.read src_fd (size_t size) r) := by
  intro fuel
  induction fuel with
  | zero => intro src ri wi h; omega
  | succ fuel ih =>
    intro src ri wi hfuel
    have hle1 := sys_read_le_count (rd ri) (size_t size) src.length
    have hle2 := sys_read_le_avail (rd ri) (size_t size) src.length
    have hlt := size_t_lt size
    unfold relay_loop
    simp only []
    by_cases hpos : 0 < sys_read (rd ri) (size_t size) src.length
    · rw [if_pos hpos]
      obtain ⟨tw, wi1, htw, hrest⟩ := write_loop_ends dst_fd wr
        (src.take (sys_read (rd ri) (size_t size) src.length).toNat)
        (sys_read (rd ri) (size_t size) src.length)
        ((sys_read (rd ri) (size_t size) src.length).toNat + 1) 0
        (sys_read (rd ri) (size_t size) src.length) wi (by omega) (by omega) (by omega)
      obtain ⟨t, ht, hhead, hnw, r, hr, hlast⟩ := ih
        (src.drop (sys_read (rd ri) (size_t size) src.length).toNat) (ri + 1) wi1
        (by rw [List.length_drop]; omega)
      simp only [htw, ht]
      refine ⟨_, rfl, by simp [Event.isWrite], ?_, r, hr, ?_⟩
      · exact no_write_after_error_cons _ _ (Or.inl rfl) (hrest t hhead hnw)
      · rw [← List.cons_append, List.getLast?_append, hlast]
        rfl
    · rw [if_neg hpos]
      exact ⟨_, rfl, by simp [Event.isWrite], rfl, _, not_lt.1 hpos, rfl⟩

/-- The relay always comes back by the plain return. -/
theorem relay_loop_returned (src_fd dst_fd : Fd) (size : Int) (rd wr : Nat → Int) :
    ∀ (fuel : Nat) (src : List Byte) (ri wi : Nat) (t : List Event) (o : Outcome),
      relay_loop src_fd dst_fd size rd wr fuel src ri wi = some (t, o) →
      o = Outcome.returned := by
  intro fuel
  induction fuel with
  | zero => intro src ri wi t o h; simp [relay_loop] at h
  | succ fuel ih =>
    intro src ri wi t o h
    unfold relay_loop at h
    simp only [] at h
    split at h
    · split at h
      · exact absurd h (by simp)
      · rename_i tw wi1 heq
        split at h
        · exact absurd h (by simp)
        · rename_i t1 o1 heq1
          simp only [Option.some.injEq, Prod.mk.injEq] at h
          rw [← h.2]
          exact ih _ _ _ _ _ heq1
    · simp only [Option.some.injEq, Prod.mk.injEq] at h
      exact h.2.symm

/-- A relay asked for zero bytes reads once, gets nothing and returns. -/
theorem relay_zero_size (src_fd dst_fd : Fd) (size : Int) (rd wr : Nat → Int)
    (src : List Byte) (hsize : size_t size = 0) (hr : 0 ≤ rd 0) :
    relay_byte_stream src_fd dst_fd size rd wr src =
      some ([Event.read src_fd 0 0], Outcome.returned) := by
  have h0 : sys_read (rd 0) 0 src.length = 0 := by
    unfold sys_read
    rw [if_neg (by omega)]
    omega
  unfold relay_byte_stream relay_loop
  simp only [hsize, h0, lt_irrefl, if_false]

/-- A source whose whole content comes in one `read` and goes out in one
`write`: the relay reads it, writes it, reads again, gets nothing and returns. -/
theorem relay_loop_one_chunk (src_fd dst_fd : Fd) (size : Int) (rd wr : Nat → Int)
    (src : List Byte) (k : Nat)
    (hlen : (src.length : Int) < 18446744073709551616)
    (hpos : 0 < src.length)
    (hread : sys_read (rd 0) (size_t size) src.length = src.length)
    (hwrite : sys_write (wr 0) src.length = src.length)
    (hr1 : 0 ≤ rd 1) :
    relay_loop src_fd dst_fd size rd wr (k + 2) src 0 0 =
      some ([Event.read src_fd (size_t size) src.length,
             Event.write dst_fd src src.length,
             Event.read src_fd (size_t size) 0], Outcome.returned) := by
  have hst : size_t (src.length : Int) = src.length := by
    rw [size_t_of_lt _ (by omega) hlen]
    simp
  have hposI : (0 : Int) < src.length := by omega
  have h0 : sys_read (rd 1) (size_t size) 0 = 0 := by
    unfold sys_read
    rw [if_neg (by omega)]
    omega
  unfold relay_loop
  simp only [hread, hposI, if_true, Int.toNat_ofNat, List.take_length, List.drop_length]
  unfold write_loop
  simp only [hst, hwrite, hposI, if_true, List.drop_zero, List.take_length]
  unfold relay_loop
  simp only [List.length_nil, Nat.cast_zero, h0, lt_irrefl, if_false, List.singleton_append,
    zero_add]

/-- The inner loop issues `write` calls only. -/
theorem write_loop_calls (dst_fd : Fd) (wr : Nat → Int) (buf : List Byte) (bytes_read : Int) :
    ∀ (fuel ptr : Nat) (bytes_remain : Int) (wi : Nat) (t : List Event) (wi1 : Nat),
      write_loop dst_fd wr buf bytes_read fuel ptr bytes_remain wi = some (t, wi1) →
      ∀ e ∈ t, Event.isWrite e = true := by
  intro fuel
  induction fuel with
  | zero => intro ptr rem wi t wi1 h; simp [write_loop] at h
  | succ fuel ih =>
    intro ptr rem wi t wi1 h e he
    unfold write_loop at h
    simp only [] at h
    split at h
    · split at h
      · simp only [Option.some.injEq, Prod.mk.injEq] at h
        rw [← h.1] at he
        simp only [List.mem_singleton] at he
        rw [he]; rfl
      · split at h
        · exact absurd h (by simp)
        · rename_i t1 wi2 heq
          simp only [Option.some.injEq, Prod.mk.injEq] at h
          rw [← h.1] at he
          rcases List.mem_cons.1 he with h1 | h1
          · rw [h1]; rfl
          · exact ih _ _ _ _ _ heq e h1
    · simp only [Option.some.injEq, Prod.mk.injEq] at h
      rw [← h.1] at he
      simp only [List.mem_singleton] at he
      rw [he]; rfl

/-- The relay never calls `close`. -/
theorem relay_loop_calls (src_fd dst_fd : Fd) (size : Int) (rd wr : Nat → Int) :
    ∀ (fuel : Nat) (src : List Byte) (ri wi : Nat) (t : List Event) (o : Outcome),
      relay_loop src_fd dst_fd size rd wr fuel src ri wi = some (t, o) →
      ∀ e ∈ t, Event.isClose e = false := by
  intro fuel
  induction fuel with
  | zero => intro src ri wi t o h; simp [relay_loop] at h
  | succ fuel ih =>
    intro src ri wi t o h e he
    unfold relay_loop at h
    simp only [] at h
    split at h
    · split at h
      · exact absurd h (by simp)
      · rename_i tw wi1 heq
        split at h
        · exact absurd h (by simp)
        · rename_i t1 o1 heq1
          simp only [Option.some.injEq, Prod.mk.injEq] at h
          rw [← h.1] at he
          rcases List.mem_cons.1 he with h1 | h1
          · rw [h1]; rfl
          · rcases List.mem_append.1 h1 with h2 | h2
            · have := write_loop_calls _ _ _ _ _ _ _ _ _ _ heq e h2
              cases e <;> simp_all [Event.isWrite, Event.isClose]
            · exact ih _ _ _ _ _ heq1 e h2
    · simp only [Option.some.injEq, Prod.mk.injEq] at h
      rw [← h.1] at he
      simp only [List.mem_singleton] at he
      rw [he]; rfl

/-- Function `serve_file` never calls `close`. -/
theorem serve_file_calls (w : World) (fd : Fd) (path : CStr) (size : Int)
    (t : List Event) (o : Outcome) (h : serve_file w fd path size = some (t, o)) :
    ∀ e ∈ t, Event.isClose e = false := by
  intro e he
  unfold serve_file at h
  simp only [] at h
  split at h
  · rename_i file_fd content hopen
    split at h
    · exact absurd h (by simp)
    · rename_i t1 o1 heq
      simp only [Option.some.injEq, Prod.mk.injEq] at h
      rw [← h.1] at he
      simp only [List.cons_append, List.nil_append, List.mem_cons] at he
      rcases he with h1 | h1 | h1 | h1 | h1 | h1
      · rw [h1]; rfl
      · rw [h1]; rfl
      · rw [h1]; rfl
      · rw [h1]; rfl
      · rw [h1]; rfl
      · exact relay_loop_calls _ _ _ _ _ _ _ _ _ _ _ heq e h1
  · split at h
    · exact absurd h (by simp)
    · rename_i t1 o1 heq
      simp only [Option.some.injEq, Prod.mk.injEq] at h
      rw [← h.1] at he
      simp only [List.cons_append, List.nil_append, List.mem_cons] at he
      rcases he with h1 | h1 | h1 | h1 | h1 | h1
      · rw [h1]; rfl
      · rw [h1]; rfl
      · rw [h1]; rfl
      · rw [h1]; rfl
      · rw [h1]; rfl
      · exact relay_loop_calls _ _ _ _ _ _ _ _ _ _ _ heq e h1

/-- The `readdir` loop never calls `close`. -/
theorem readdir_loop_calls (w : World) (fd : Fd) (path : CStr) :
    ∀ (entries : List CStr) (wi : Nat), ∀ e ∈ (readdir_loop w fd path entries wi).1,
      Event.isClose e = false := by
  intro entries
  induction entries with
  | nil => intro wi e he; simp [readdir_loop] at he
  | cons d rest ih =>
    intro wi e he
    unfold readdir_loop at he
    simp only [] at he
    rcases List.mem_cons.1 he with h1 | h1
    · rw [h1]; rfl
    · exact ih _ e h1

/-- Function `serve_directory` never calls `close`. -/
theorem serve_directory_calls (w : World) (fd : Fd) (path : CStr) :
    ∀ e ∈ (serve_directory w fd path).1, Event.isClose e = false := by
  intro e he
  unfold serve_directory at he
  simp only [] at he
  split at he
  · simp only [List.mem_cons, List.not_mem_nil, or_false] at he
    rcases he with h1 | h1 | h1 | h1
    · rw [h1]; rfl
    · rw [h1]; rfl
    · rw [h1]; rfl
    · rw [h1]; rfl
  · simp only [List.cons_append, List.nil_append, List.mem_cons] at he
    rcases he with h1 | h1 | h1 | h1 | h1
    · rw [h1]; rfl
    · rw [h1]; rfl
    · rw [h1]; rfl
    · rw [h1]; rfl
    · exact readdir_loop_calls w fd path _ 0 e h1

/-- When the handler returns, the final `close(fd)` was appended to the calls of the reply. -/
theorem close_after_returned (fd : Fd) (l t : List Event) (o : Outcome)
    (h : close_after fd (l, o) = (t, Outcome.returned)) :
    t = l ++ [Event.close fd] := by
  unfold close_after at h
  cases o <;> simp_all

/-- Function `strstr` finds `..` wherever it occurs. -/
theorem strstr_dotdot (pre post : CStr) :
    (strstr (pre ++ '.' :: '.' :: post) ['.', '.']).isSome = true := by
  induction pre with
  | nil => simp [strstr, List.isPrefixOf]
  | cons c pre ih =>
    rw [List.cons_append, strstr]
    split
    · rfl
    · rw [Option.isSome_map']
      exact ih

/-- The test `request->path[0] == '/'` in terms of the first character of the path. -/
theorem headD_eq_slash_iff (p : CStr) :
    p.headD (Char.ofNat 0) = '/' ↔ p.head? = some '/' := by
  cases p with
  | nil => simp
  | cons c p => simp

/-- The run of the handler for a path it takes for a regular file. -/
theorem handle_files_request_file (w : World) (fd : Fd) (request : http_request)
    (hreq : w.request = some request)
    (hslash : request.path.headD (Char.ofNat 0) = '/')
    (hdots : strstr request.path ['.', '.'] = none)
    (hreg : S_ISREG (stat_into w ('.' :: '/' :: request.path) w.stale).st_mode = true) :
    handle_files_request w fd =
      match serve_file w fd ('.' :: '/' :: request.path)
          (to_int (stat_into w ('.' :: '/' :: request.path) w.stale).st_size) with
      | none => none
      | some r => some (close_after fd
          ([Event.parse fd, Event.stat ('.' :: '/' :: request.path)] ++ r.1, r.2)) := by
  unfold handle_files_request
  simp only [hreq, hslash, hdots, hreg, ne_eq, not_true_eq_false, if_false, if_true,
    Option.isSome_none, Bool.false_eq_true]

/-- The handler never reaches the iteration bound of the relay. -/
theorem handle_files_request_total (w : World) (fd : Fd) :
    ∃ r, handle_files_request w fd = some r := by
  have hsf : ∀ p sz, ∃ r, serve_file w fd p sz = some r := by
    intro p sz
    unfold serve_file
    simp only []
    split
    · rename_i file_fd content _
      obtain ⟨t, h, _⟩ := relay_loop_ends file_fd fd sz w.rd w.wr (content.length + 1)
        content 0 0 (Nat.lt_succ_self _)
      unfold relay_byte_stream
      rw [h]
      exact ⟨_, rfl⟩
    · obtain ⟨t, h, _⟩ := relay_loop_ends (-1) fd sz (fun _ => -1) w.wr
        (([] : List Byte).length + 1) [] 0 0 (Nat.lt_succ_self _)
      unfold relay_byte_stream
      rw [h]
      exact ⟨_, rfl⟩
  unfold handle_files_request
  split
  · exact ⟨_, rfl⟩
  · rename_i request _
    simp only []
    split
    · exact ⟨_, rfl⟩
    · split
      · exact ⟨_, rfl⟩
      · split
        · obtain ⟨r, hr⟩ := hsf ('.' :: '/' :: request.path)
            (to_int (stat_into w ('.' :: '/' :: request.path) w.stale).st_size)
          rw [hr]
          exact ⟨_, rfl⟩
        · split
          · split
            · obtain ⟨r, hr⟩ := hsf
                ('.' :: '/' :: request.path ++ "/index.html".toList ++ w.heap_junk)
                (to_int (stat_into w
                  ('.' :: '/' :: request.path ++ "/index.html".toList ++ w.heap_junk)
                  (stat_into w ('.' :: '/' :: request.path) w.stale)).st_size)
              rw [hr]
              exact ⟨_, rfl⟩
            · exact ⟨_, rfl⟩
          · exact ⟨_, rfl⟩

/-- The run of `serve_file` on the file of 8193 bytes. -/
theorem serve_file_big_file :
    serve_file big_file_world 4 ['.', '/', '/', 'b', 'i', 'g'] 8193 =
      some ([Event.start_response 4 200,
             Event.send_header 4 "Content-Type" "text/plain",
             Event.send_header 4 "Content-Length" "8193",
             Event.end_headers 4,
             Event.open_file ['.', '/', '/', 'b', 'i', 'g'] 5,
             Event.read 5 8193 8193,
             Event.write 4 (List.replicate 8193 0) 8193,
             Event.read 5 8193 0], Outcome.returned) := by
  have h : relay_byte_stream 5 4 8193 (fun _ => 8193) (fun _ => 8193)
      (List.replicate 8193 0) =
      some ([Event.read 5 8193 8193, Event.write 4 (List.replicate 8193 0) 8193,
             Event.read 5 8193 0], Outcome.returned) := by
    have h1 := relay_loop_one_chunk 5 4 8193 (fun _ => 8193) (fun _ => 8193)
      (List.replicate 8193 0) 8192
      (by rw [List.length_replicate]; decide) (by rw [List.length_replicate]; decide)
      (by rw [List.length_replicate]; decide) (by rw [List.length_replicate]; decide)
      (by decide)
    rw [List.length_replicate] at h1
    unfold relay_byte_stream
    rw [List.length_replicate]
    exact h1
  unfold serve_file
  simp only [big_file_world, quiet_world, if_true, h]
  rfl

/-- Neither pump of the proxy ever calls `close`. -/
theorem pump_never_closes (start_routine : StartRoutine) (arg : THREAD_ARG)
    (rd wr : Nat → Int) (src : List Byte) (t : List Event) (o : Outcome)
    (h : start_routine.run arg rd wr src = some (t, o)) :
    ∀ e ∈ t, Event.isClose e = false := by
  cases start_routine
  · exact relay_loop_calls arg.client_fd arg.server_fd REQUEST_MAX_SIZE rd wr
      (src.length + 1) src 0 0 t o h
  · exact relay_loop_calls arg.server_fd arg.client_fd REQUEST_MAX_SIZE rd wr
      (src.length + 1) src 0 0 t o h

/-- Bytes accepted in two runs, one after the other. -/
theorem delivered_append (fd : Fd) (t1 t2 : List Event) :
    delivered fd (t1 ++ t2) = delivered fd t1 ++ delivered fd t2 := by
  induction t1 with
  | nil => rfl
  | cons e t1 ih =>
    cases e with
    | write fd1 data ret =>
      simp only [List.cons_append, delivered]
      split <;> simp [ih]
    | _ => simpa only [List.cons_append, delivered] using ih

/-- With `size` between 1 and `BUF_SIZE_MAX`, a source that delivers at least one byte
per `read` while it has any, and a destination that accepts at least one byte per
`write`, the relay returns and the destination has accepted the whole source, in order.
-/
theorem relay_loop_delivers (src_fd dst_fd : Fd) (size : Int) (rd wr : Nat → Int)
    (hs0 : 0 < size) (hs : size ≤ (BUF_SIZE_MAX : Int))
    (hr : ∀ i, 0 < rd i) (hw : ∀ i, 0 < wr i) :
    ∀ (fuel : Nat) (src : List Byte) (ri wi : Nat), src.length < fuel →
      ∃ t, relay_loop src_fd dst_fd size rd wr fuel src ri wi = some (t, Outcome.returned)
        ∧ delivered dst_fd t = src := by
  have hst : size_t size = size.toNat := size_t_of_small size (le_of_lt hs0) hs
  intro fuel
  induction fuel with
  | zero => intro src ri wi h; omega
  | succ fuel ih =>
    intro src ri wi hfuel
    have hri := hr ri
    have hrd : sys_read (rd ri) (size_t size) src.length
        = min (min (rd ri) size) src.length := by
      unfold sys_read
      rw [hst, if_neg (by omega)]
      congr 2
      omega
    unfold relay_loop
    simp only []
    by_cases hpos : 0 < sys_read (rd ri) (size_t size) src.length
    · have hcap : ¬ (BUF_SIZE_MAX : Int) < sys_read (rd ri) (size_t size) src.length := by
        rw [hrd]; omega
      have hlen : (src.take (sys_read (rd ri) (size_t size) src.length).toNat).length
          = (sys_read (rd ri) (size_t size) src.length).toNat := by
        rw [List.length_take, hrd]; omega
      obtain ⟨tw, wi1, htw, hd, _⟩ := write_loop_flush dst_fd wr
        (src.take (sys_read (rd ri) (size_t size) src.length).toNat)
        (sys_read (rd ri) (size_t size) src.length) (by rw [hlen]; omega)
        (by rw [hlen]; omega) hw
        ((sys_read (rd ri) (size_t size) src.length).toNat + 1) 0
        (sys_read (rd ri) (size_t size) src.length) wi (by omega) (by rw [hlen]; omega)
        (by omega)
      obtain ⟨t, ht, hdt⟩ := ih
        (src.drop (sys_read (rd ri) (size_t size) src.length).toNat) (ri + 1) wi1
        (by rw [List.length_drop]; omega)
      simp only [hpos, hcap, if_true, if_false, htw, ht]
      refine ⟨_, rfl, ?_⟩
      simp only [delivered, delivered_append, hd, hdt, List.drop_zero]
      exact List.take_append_drop _ src
    · rw [if_neg hpos]
      refine ⟨_, rfl, ?_⟩
      have hnil : src = [] := by
        rw [hrd] at hpos
        have : src.length = 0 := by omega
        exact List.length_eq_zero.1 this
      rw [hnil]; rfl

/-- For a file of at most `BUF_SIZE_MAX` bytes that opens, reads and writes without
error, `serve_file` announces the file length as Content-Length and the client accepts
exactly the bytes of the file. -/
theorem serve_file_small_file (w : World) (fd file_fd : Fd) (path : CStr)
    (content : List Byte)
    (hopen : w.open_file path = some (file_fd, content))
    (hsize : content.length ≤ BUF_SIZE_MAX)
    (hr : ∀ i, 0 < w.rd i) (hw : ∀ i, 0 < w.wr i) :
    ∃ t, serve_file w fd path (to_int content.length) =
        some ([Event.start_response fd 200,
               Event.send_header fd "Content-Type" (w.mime path),
               Event.send_header fd "Content-Length" (toString content.length),
               Event.end_headers fd,
               Event.open_file path file_fd] ++ t, Outcome.returned)
      ∧ delivered fd t = content := by
  have hti : to_int content.length = content.length := by
    unfold to_int; unfold BUF_SIZE_MAX at hsize; omega
  unfold serve_file
  simp only [hopen, hti]
  by_cases h0 : content.length = 0
  · have hnil : content = [] := List.length_eq_zero.1 h0
    subst hnil
    refine ⟨[Event.read file_fd 0 0], ?_, rfl⟩
    have hrd := hr 0
    have : relay_byte_stream file_fd fd ((([] : List Byte).length : Nat) : Int) w.rd w.wr []
        = some ([Event.read file_fd 0 0], Outcome.returned) := by
      unfold relay_byte_stream relay_loop
      have h1 : sys_read (w.rd 0) (size_t ((([] : List Byte).length : Nat) : Int))
          ([] : List Byte).length = 0 := by
        unfold sys_read
        rw [if_neg (by omega)]
        simp
        omega
      simp only [h1, lt_irrefl, if_false]
      rfl
    rw [this]
    rfl
  · obtain ⟨t, ht, hd⟩ := relay_loop_delivers file_fd fd content.length w.rd w.wr
      (by omega) (by omega) hr hw (content.length + 1) content 0 0 (Nat.lt_succ_self _)
    unfold relay_byte_stream
    rw [ht]
    exact ⟨t, rfl, hd⟩

/-- A file whose size converts to the `int` 0: the handler announces
Content-Length 0 and the relay, asked for 0 bytes, writes nothing. -/
theorem handle_files_request_wrapped_size (w : World) (fd : Fd) (request : http_request)
    (file_fd : Fd) (content : List Byte) (st_size : Int) (st_mode : Nat)
    (hreq : w.request = some request)
    (hslash : request.path.headD (Char.ofNat 0) = '/')
    (hdots : strstr request.path ['.', '.'] = none)
    (hstat : w.stat ('.' :: '/' :: request.path)
      = some { st_mode := st_mode, st_size := st_size })
    (hreg : S_ISREG st_mode = true)
    (hsize : to_int st_size = 0)
    (hopen : w.open_file ('.' :: '/' :: request.path) = some (file_fd, content))
    (hr : 0 ≤ w.rd 0) :
    handle_files_request w fd =
      some ([Event.parse fd,
             Event.stat ('.' :: '/' :: request.path),
             Event.start_response fd 200,
             Event.send_header fd "Content-Type" (w.mime ('.' :: '/' :: request.path)),
             Event.send_header fd "Content-Length" "0",
             Event.end_headers fd,
             Event.open_file ('.' :: '/' :: request.path) file_fd,
             Event.read file_fd 0 0,
             Event.close fd], Outcome.returned) := by
  have hst : stat_into w ('.' :: '/' :: request.path) w.stale
      = { st_mode := st_mode, st_size := st_size } := by
    unfold stat_into
    rw [hstat]
    rfl
  have hrelay := relay_zero_size file_fd fd 0 w.rd w.wr content (by decide) hr
  rw [handle_files_request_file w fd request hreq hslash hdots (by rw [hst]; exact hreg)]
  simp only [hst, hsize]
  unfold serve_file
  simp only [hopen, hrelay]
  rfl

/-- Function `serve_file` always comes back by the plain return. -/
theorem serve_file_returned (w : World) (fd : Fd) (path : CStr) (size : Int)
    (t : List Event) (o : Outcome) (h : serve_file w fd path size = some (t, o)) :
    o = Outcome.returned := by
  unfold serve_file at h
  simp only [] at h
  split at h
  · split at h
    · exact absurd h (by simp)
    · rename_i t1 o1 heq
      simp only [Option.some.injEq, Prod.mk.injEq] at h
      rw [← h.2]
      exact relay_loop_returned _ _ _ _ _ _ _ _ _ _ _ heq
  · split at h
    · exact absurd h (by simp)
    · rename_i t1 o1 heq
      simp only [Option.some.injEq, Prod.mk.injEq] at h
      rw [← h.2]
      exact relay_loop_returned _ _ _ _ _ _ _ _ _ _ _ heq

/-- The `readdir` loop always runs to its end. -/
theorem readdir_loop_returned (w : World) (fd : Fd) (path : CStr) :
    ∀ (entries : List CStr) (wi : Nat),
      (readdir_loop w fd path entries wi).2 = Outcome.returned := by
  intro entries
  induction entries with
  | nil => intro wi; rfl
  | cons d rest ih =>
    intro wi
    unfold readdir_loop
    exact ih (wi + 1)

/-- The final `close(fd)` leaves the way the reply ended as it was. -/
theorem close_after_outcome (fd : Fd) (l t : List Event) (o1 o : Outcome)
    (h : close_after fd (l, o1) = (t, o)) : o = o1 := by
  unfold close_after at h
  cases o1 <;> simp_all

/-- A run of the handler reaches the end of the handler unless `opendir` on the
requested directory returns `NULL`, in which case it ends in `readdir(NULL)`. -/
theorem handle_files_request_ends (w : World) (fd : Fd) (t : List Event) (o : Outcome)
    (h : handle_files_request w fd = some (t, o)) :
    o = Outcome.returned
    ∨ (o = Outcome.null_dir ∧ ∃ request, w.request = some request
        ∧ w.opendir ('.' :: '/' :: request.path) = none) := by
  unfold handle_files_request at h
  split at h
  · simp only [Option.some.injEq, Prod.mk.injEq] at h
    exact Or.inl h.2.symm
  · rename_i request hreq
    simp only [] at h
    split at h
    · simp only [Option.some.injEq, Prod.mk.injEq] at h
      exact Or.inl h.2.symm
    · split at h
      · simp only [Option.some.injEq, Prod.mk.injEq] at h
        exact Or.inl h.2.symm
      · split at h
        · split at h
          · exact absurd h (by simp)
          · rename_i r hsf
            simp only [Option.some.injEq] at h
            have h1 := close_after_outcome fd _ _ _ _ h
            have h2 := serve_file_returned w fd _ _ r.1 r.2 hsf
            exact Or.inl (h1.trans h2)
        · split at h
          · split at h
            · split at h
              · exact absurd h (by simp)
              · rename_i r hsf
                simp only [Option.some.injEq] at h
                have h1 := close_after_outcome fd _ _ _ _ h
                have h2 := serve_file_returned w fd _ _ r.1 r.2 hsf
                exact Or.inl (h1.trans h2)
            · simp only [Option.some.injEq] at h
              have h1 := close_after_outcome fd _ _ _ _ h
              rw [h1]
              unfold serve_directory
              simp only []
              cases hod : w.opendir ('.' :: '/' :: request.path) with
              | none => exact Or.inr ⟨rfl, request, hreq, hod⟩
              | some entries =>
                simp only []
                exact Or.inl (readdir_loop_returned w fd _ entries 0)
          · simp only [Option.some.injEq] at h
            exact Or.inl (close_after_outcome fd _ _ _ _ h)

/-! ## Claims about relay_byte_stream -/

/-- C1. One iteration of the outer loop of `relay_byte_stream` whose `read`
returned a chunk of n > 0 bytes (n within the buffer), run against a destination
that answers every `write` with a positive count: the iteration is the `read`,
then `write`s on `dst_fd` only, through which the destination accepts exactly the
n bytes of the chunk in order, then the rest of the loop, which starts with the
next `read`.  The `write` of zero bytes that ends a chunk flushed in several
pieces returns 0: a `write` accepts no more than it is offered. -/
theorem relay_chunk_flushed (src_fd dst_fd : Fd) (size : Int) (rd wr : Nat → Int)
    (fuel : Nat) (src : List Byte) (ri wi : Nat)
    (hw : ∀ i, 0 < wr i)
    (hn : 0 < sys_read (rd ri) (size_t size) src.length)
    (hcap : sys_read (rd ri) (size_t size) src.length ≤ (BUF_SIZE_MAX : Int)) :
    ∃ tw wi1,
      (∀ e ∈ tw, Event.isWriteTo dst_fd e = true) ∧
      delivered dst_fd tw = src.take (sys_read (rd ri) (size_t size) src.length).toNat ∧
      relay_loop src_fd dst_fd size rd wr (fuel + 1) src ri wi =
        (relay_loop src_fd dst_fd size rd wr fuel
          (src.drop (sys_read (rd ri) (size_t size) src.length).toNat) (ri + 1) wi1).map
          (fun r => (Event.read src_fd (size_t size)
            (sys_read (rd ri) (size_t size) src.length) :: (tw ++ r.1), r.2)) := by
  have hle2 := sys_read_le_avail (rd ri) (size_t size) src.length
  have hlen : (src.take (sys_read (rd ri) (size_t size) src.length).toNat).length
      = (sys_read (rd ri) (size_t size) src.length).toNat := by
    rw [List.length_take]; omega
  obtain ⟨tw, wi1, htw, hd, hall⟩ := write_loop_flush dst_fd wr
    (src.take (sys_read (rd ri) (size_t size) src.length).toNat)
    (sys_read (rd ri) (size_t size) src.length) (by rw [hlen]; omega)
    (by rw [hlen]; omega) hw
    ((sys_read (rd ri) (size_t size) src.length).toNat + 1) 0
    (sys_read (rd ri) (size_t size) src.length) wi (by omega) (by rw [hlen]; omega) (by omega)
  refine ⟨tw, wi1, hall, ?_, ?_⟩
  · rw [hd, List.drop_zero]
  · conv_lhs => unfold relay_loop
    simp only [hn, if_true, not_lt.2 hcap, if_false, htw]
    cases relay_loop src_fd dst_fd size rd wr fuel
      (src.drop (sys_read (rd ri) (size_t size) src.length).toNat) (ri + 1) wi1 with
    | none => rfl
    | some r => rfl

/-- C1, at a source holding 7 8 9 10 read three bytes at a time and a destination
that takes two bytes per `write`. -/
theorem relay_chunk_flushed_witness :
    ∃ tw wi1,
      (∀ e ∈ tw, Event.isWriteTo 4 e = true) ∧
      delivered 4 tw = [7, 8, 9] ∧
      relay_loop 3 4 3 (fun _ => 8) (fun _ => 2) 3 [7, 8, 9, 10] 0 0 =
        (relay_loop 3 4 3 (fun _ => 8) (fun _ => 2) 2 [10] 1 wi1).map
          (fun r => (Event.read 3 3 3 :: (tw ++ r.1), r.2)) :=
  relay_chunk_flushed 3 4 3 (fun _ => 8) (fun _ => 2) 2 [7, 8, 9, 10] 0 0
    (fun _ => by norm_num) (by decide) (by decide)

/-- C3 fails on the code: `serve_file` on a regular file of 8193 bytes passes
8193 as `size`, and the relay asks `read` for 8193 bytes into its block of
`BUF_SIZE_MAX` = 8192 bytes; the `read` stores 8193, one past the end of the
block, and the relay goes on to write them. -/
theorem serve_file_read_exceeds_buffer :
    serve_file big_file_world 4 ['.', '/', '/', 'b', 'i', 'g'] 8193 =
      some ([Event.start_response 4 200,
             Event.send_header 4 "Content-Type" "text/plain",
             Event.send_header 4 "Content-Length" "8193",
             Event.end_headers 4,
             Event.open_file ['.', '/', '/', 'b', 'i', 'g'] 5,
             Event.read 5 8193 8193,
             Event.write 4 (List.replicate 8193 0) 8193,
             Event.read 5 8193 0], Outcome.returned)
    ∧ BUF_SIZE_MAX < 8193 :=
  ⟨serve_file_big_file, by decide⟩

/-! ## Claims about handle_files_request -/

/-- C4 as stated fails: the path `../x` contains a parent-directory segment and
is answered 400, not 403, because the test for a leading slash comes first. -/
theorem dotdot_without_slash_gets_400 :
    dotdot_world.request = some { path := [] ++ '.' :: '.' :: ['/', 'x'] }
    ∧ handle_files_request dotdot_world 4 =
      some ([Event.parse 4,
             Event.start_response 4 400,
             Event.send_header 4 "Content-Type" "text/html",
             Event.end_headers 4,
             Event.close 4], Outcome.returned) := by
  decide

/-- C4, amended.  For every parsed request whose path contains `..`, the handler
issues exactly: the parse, a response with status 403 if the path starts with a
slash and 400 otherwise, the Content-Type header, the end of headers, and the
close of the connection.  No `stat`, `open` or `opendir` is among them. -/
theorem traversal_rejected (w : World) (fd : Fd) (request : http_request)
    (hreq : w.request = some request)
    (hdots : ∃ pre post, request.path = pre ++ '.' :: '.' :: post) :
    handle_files_request w fd =
      some ([Event.parse fd,
             Event.start_response fd (if request.path.head? = some '/' then 403 else 400),
             Event.send_header fd "Content-Type" "text/html",
             Event.end_headers fd,
             Event.close fd], Outcome.returned) := by
  obtain ⟨pre, post, hp⟩ := hdots
  have hs : (strstr request.path ['.', '.']).isSome = true := by
    rw [hp]; exact strstr_dotdot pre post
  unfold handle_files_request
  simp only [hreq]
  by_cases hh : request.path.head? = some '/'
  · have hd := (headD_eq_slash_iff request.path).2 hh
    simp only [hd, hh, hs, ne_eq, not_true_eq_false, if_false, if_true, reject]
  · have hd : ¬ request.path.headD (Char.ofNat 0) = '/' :=
      fun h => hh ((headD_eq_slash_iff request.path).1 h)
    simp only [hd, hh, ne_eq, not_false_eq_true, if_true, if_false, reject]

/-- C4 amended, at the path `/../x`. -/
theorem traversal_rejected_witness :
    handle_files_request slash_dotdot_world 4 =
      some ([Event.parse 4,
             Event.start_response 4 403,
             Event.send_header 4 "Content-Type" "text/html",
             Event.end_headers 4,
             Event.close 4], Outcome.returned) :=
  traversal_rejected slash_dotdot_world 4 { path := ['/', '.', '.', '/', 'x'] } rfl
    ⟨['/'], ['/', 'x'], rfl⟩

/-- Every run of `handle_files_request` that reaches the end of the handler
(whichever of the replies 400, 403, file, directory index, directory listing or
404 it gave) ends with `close(fd)`, and no `close` at all comes before it: the
connection is closed once, after everything written for the response. -/
theorem handle_files_request_closes_once (w : World) (fd : Fd) (t : List Event)
    (h : handle_files_request w fd = some (t, Outcome.returned)) :
    ∃ pre, t = pre ++ [Event.close fd] ∧ ∀ e ∈ pre, Event.isClose e = false := by
  have hrej : ∀ status, ∃ pre, Event.parse fd :: reject fd status = pre ++ [Event.close fd]
      ∧ ∀ e ∈ pre, Event.isClose e = false := by
    intro status
    refine ⟨[Event.parse fd, Event.start_response fd status,
      Event.send_header fd "Content-Type" "text/html", Event.end_headers fd], rfl, ?_⟩
    intro e he
    simp only [List.mem_cons, List.mem_singleton, List.not_mem_nil, or_false] at he
    rcases he with h1 | h1 | h1 | h1 <;> (rw [h1]; rfl)
  unfold handle_files_request at h
  split at h
  · simp only [Option.some.injEq, Prod.mk.injEq, and_true] at h
    rw [← h]; exact hrej 400
  · rename_i request _
    simp only [] at h
    split at h
    · simp only [Option.some.injEq, Prod.mk.injEq, and_true] at h
      rw [← h]; exact hrej 400
    · split at h
      · simp only [Option.some.injEq, Prod.mk.injEq, and_true] at h
        rw [← h]; exact hrej 403
      · split at h
        · split at h
          · exact absurd h (by simp)
          · rename_i r hsf
            simp only [Option.some.injEq] at h
            have ht := close_after_returned fd _ t r.2 h
            refine ⟨_, ht, ?_⟩
            intro e he
            rcases List.mem_append.1 he with h1 | h1
            · simp only [List.mem_cons, List.mem_singleton, List.not_mem_nil, or_false] at h1
              rcases h1 with h1 | h1 <;> (rw [h1]; rfl)
            · exact serve_file_calls w fd _ _ r.1 r.2 hsf e h1
        · split at h
          · split at h
            · split at h
              · exact absurd h (by simp)
              · rename_i r hsf
                simp only [Option.some.injEq] at h
                have ht := close_after_returned fd _ t r.2 h
                refine ⟨_, ht, ?_⟩
                intro e he
                rcases List.mem_append.1 he with h1 | h1
                · simp only [List.cons_append, List.nil_append, List.mem_cons,
                    List.mem_singleton, List.not_mem_nil, or_false] at h1
                  rcases h1 with h1 | h1 | h1 <;> (rw [h1]; rfl)
                · exact serve_file_calls w fd _ _ r.1 r.2 hsf e h1
            · simp only [Option.some.injEq] at h
              have ht := close_after_returned fd _ t _ h
              refine ⟨_, ht, ?_⟩
              intro e he
              rcases List.mem_append.1 he with h1 | h1
              · simp only [List.cons_append, List.nil_append, List.mem_cons,
                  List.mem_singleton, List.not_mem_nil, or_false] at h1
                rcases h1 with h1 | h1 | h1 <;> (rw [h1]; rfl)
              · exact serve_directory_calls w fd _ e h1
          · simp only [Option.some.injEq] at h
            have ht := close_after_returned fd _ t _ h
            refine ⟨_, ht, ?_⟩
            intro e he
            simp only [List.cons_append, List.nil_append, List.mem_cons,
              List.mem_singleton, List.not_mem_nil, or_false] at he
            rcases he with h1 | h1 | h1 | h1 <;> (rw [h1]; rfl)

/-- The run of the handler on a request for a three-byte file ends with its
one `close`. -/
theorem handle_files_request_closes_once_witness :
    ∃ pre,
      [Event.parse 4,
       Event.stat ['.', '/', '/', 'a'],
       Event.start_response 4 200,
       Event.send_header 4 "Content-Type" "text/plain",
       Event.send_header 4 "Content-Length" "3",
       Event.end_headers 4,
       Event.open_file ['.', '/', '/', 'a'] 5,
       Event.read 5 3 3,
       Event.write 4 [7, 8, 9] 2,
       Event.write 4 [9] 1,
       Event.write 4 [] 0,
       Event.read 5 3 0,
       Event.close 4] = pre ++ [Event.close 4] ∧ ∀ e ∈ pre, Event.isClose e = false :=
  handle_files_request_closes_once small_file_world 4 _ (by decide)

/-- C7 fails on the code: `/d` is a directory that `opendir` refuses.  The
handler sends the 200 response head, `serve_directory` passes the `NULL` from
`opendir` to `readdir`, and the run ends there: `close(fd)` is never issued.
On every run that does reach the end of the handler the connection is closed
exactly once (`handle_files_request_closes_once`), and the refused `opendir` is
the only way not to reach it (`handle_files_request_ends`). -/
theorem unreadable_directory_never_closed :
    handle_files_request unreadable_dir_world 4 =
      some ([Event.parse 4,
             Event.stat ".//d".toList,
             Event.stat ".//d/index.html".toList,
             Event.start_response 4 200,
             Event.send_header 4 "Content-Type" "text/plain",
             Event.end_headers 4,
             Event.opendir ".//d".toList], Outcome.null_dir)
    ∧ closes 4 [Event.parse 4,
             Event.stat ".//d".toList,
             Event.stat ".//d/index.html".toList,
             Event.start_response 4 200,
             Event.send_header 4 "Content-Type" "text/plain",
             Event.end_headers 4,
             Event.opendir ".//d".toList] = 0 := by
  decide

/-- C8 fails on the code: for a regular file of 2^32 bytes `stat` reports the
size 4294967296, and the conversion to the `int size` of `serve_file` leaves 0.
The handler announces Content-Length 0, the relay asks `read` for 0 bytes, gets
0 and returns: no byte of the file is written to the client. -/
theorem huge_file_length_lost :
    huge_file_world.stat ['.', '/', '/', 'h', 'u', 'g', 'e']
        = some { st_mode := S_IFREG, st_size := 4294967296 }
    ∧ huge_file_world.open_file ['.', '/', '/', 'h', 'u', 'g', 'e'] = some (5, huge_content)
    ∧ huge_content.length = 4294967296
    ∧ handle_files_request huge_file_world 4 =
      some ([Event.parse 4,
             Event.stat ['.', '/', '/', 'h', 'u', 'g', 'e'],
             Event.start_response 4 200,
             Event.send_header 4 "Content-Type" "text/plain",
             Event.send_header 4 "Content-Length" "0",
             Event.end_headers 4,
             Event.open_file ['.', '/', '/', 'h', 'u', 'g', 'e'] 5,
             Event.read 5 0 0,
             Event.close 4], Outcome.returned) := by
  have hstat : huge_file_world.stat ['.', '/', '/', 'h', 'u', 'g', 'e']
      = some { st_mode := S_IFREG, st_size := 4294967296 } := by
    simp only [huge_file_world, if_true]
  have hopen : huge_file_world.open_file ['.', '/', '/', 'h', 'u', 'g', 'e']
      = some (5, huge_content) := by
    simp only [huge_file_world, if_true]
  refine ⟨hstat, hopen, ?_, ?_⟩
  · unfold huge_content
    exact List.length_replicate _ _
  · exact handle_files_request_wrapped_size huge_file_world 4
      { path := ['/', 'h', 'u', 'g', 'e'] } 5 huge_content 4294967296 S_IFREG
      rfl (by decide) (by decide) hstat (by decide) (by decide) hopen (by decide)

/-- C9. When the request does not parse, and when the parsed path does not start
with a slash (the empty path included), the handler issues exactly: the parse, a
response with status 400, the Content-Type header, the end of headers, and the
close of the connection.  No `stat`, `open` or `opendir` is among them. -/
theorem bad_request_rejected (w : World) (fd : Fd)
    (h : w.request = none ∨
      ∃ request, w.request = some request ∧ request.path.head? ≠ some '/') :
    handle_files_request w fd =
      some ([Event.parse fd,
             Event.start_response fd 400,
             Event.send_header fd "Content-Type" "text/html",
             Event.end_headers fd,
             Event.close fd], Outcome.returned) := by
  unfold handle_files_request
  rcases h with h | ⟨request, hreq, hh⟩
  · simp only [h, reject]
  · have hd : ¬ request.path.headD (Char.ofNat 0) = '/' :=
      fun h => hh ((headD_eq_slash_iff request.path).1 h)
    simp only [hreq, hd, ne_eq, not_false_eq_true, if_true, reject]

/-- C9, at the path `x`. -/
theorem bad_request_rejected_witness :
    handle_files_request no_slash_world 4 =
      some ([Event.parse 4,
             Event.start_response 4 400,
             Event.send_header 4 "Content-Type" "text/html",
             Event.end_headers 4,
             Event.close 4], Outcome.returned) :=
  bad_request_rejected no_slash_world 4
    (Or.inr ⟨{ path := ['x'] }, rfl, by decide⟩)

/-- C10 fails on the code: nothing exists at `/none`, `stat` fails and stores
nothing, and the handler tests what the local `buffer` held before.  When that
is the mode of a regular file the handler calls `serve_file` and answers 200,
with the stale size as Content-Length and no body. -/
theorem missing_path_served_as_file :
    missing_world.stat ['.', '/', '/', 'n', 'o', 'n', 'e'] = none
    ∧ handle_files_request missing_world 4 =
      some ([Event.parse 4,
             Event.stat ['.', '/', '/', 'n', 'o', 'n', 'e'],
             Event.start_response 4 200,
             Event.send_header 4 "Content-Type" "text/plain",
             Event.send_header 4 "Content-Length" "3",
             Event.end_headers 4,
             Event.open_file ['.', '/', '/', 'n', 'o', 'n', 'e'] (-1),
             Event.read (-1) 3 (-1),
             Event.close 4], Outcome.returned) := by
  decide

/-! ## Claims about handle_proxy_request -/

/-- C5 as stated fails: when the upstream name does not resolve, the handler
closes both sockets and ends the process with `exit(ENXIO)`; it neither parses
the request nor sends a response. -/
theorem dns_failure_exits :
    handle_proxy_request dns_failure_world 4 =
      ([Event.gethostbyname, Event.socket 5, Event.close 5, Event.close 4],
        Outcome.exited 6) := by
  decide

/-- C5, amended.  With a target socket in hand: when `connect` fails the handler
parses the client's request, sends a 502 response, closes the target socket and
the client socket and returns; when the upstream name does not resolve it closes
both sockets and ends the process with `exit(ENXIO)`. -/
theorem proxy_upstream_failure (w : ProxyWorld) (fd : Fd) (hsock : w.socket ≠ -1) :
    (w.dns_found = true → w.connect < 0 →
      handle_proxy_request w fd =
        ([Event.gethostbyname, Event.socket w.socket,
          Event.connect w.socket w.connect,
          Event.parse fd,
          Event.start_response fd 502,
          Event.send_header fd "Content-Type" "text/html",
          Event.end_headers fd,
          Event.close w.socket,
          Event.close fd], Outcome.returned))
    ∧ (w.dns_found = false →
      handle_proxy_request w fd =
        ([Event.gethostbyname, Event.socket w.socket,
          Event.close w.socket, Event.close fd], Outcome.exited ENXIO)) := by
  constructor
  · intro hdns hconn
    unfold handle_proxy_request
    simp [hsock, hdns, hconn]
  · intro hdns
    unfold handle_proxy_request
    simp [hsock, hdns]

/-- C5 amended, at an upstream that refuses the connection. -/
theorem proxy_upstream_failure_witness :
    handle_proxy_request connect_failure_world 4 =
      ([Event.gethostbyname, Event.socket 5,
        Event.connect 5 (-1),
        Event.parse 4,
        Event.start_response 4 502,
        Event.send_header 4 "Content-Type" "text/html",
        Event.end_headers 4,
        Event.close 5,
        Event.close 4], Outcome.returned) :=
  (proxy_upstream_failure connect_failure_world 4 (by decide)).1 rfl (by decide)

/-- C6 fails on the code: when `connect` succeeds the handler creates the two
pumps, joins them and returns; it closes neither the client socket nor the
target socket. -/
theorem proxy_success_closes_nothing :
    handle_proxy_request connect_success_world 4 =
      ([Event.gethostbyname, Event.socket 5,
        Event.connect 5 0,
        Event.pthread_create 1 StartRoutine.client_to_server
          { server_fd := 4, client_fd := 5 },
        Event.pthread_create 2 StartRoutine.server_to_client
          { server_fd := 4, client_fd := 5 },
        Event.pthread_join 1,
        Event.pthread_join 2], Outcome.returned)
    ∧ closes 4 (handle_proxy_request connect_success_world 4).1 = 0
    ∧ closes 5 (handle_proxy_request connect_success_world 4).1 = 0 := by
  decide


/-- A run of the handler on a path it takes for a directory: the second `stat`
probes `path`, the 11 characters of `/index.html`, and whatever follows them in
the block. -/
theorem handle_files_request_directory (w : World) (fd : Fd) (request : http_request)
    (hreq : w.request = some request)
    (hslash : request.path.headD (Char.ofNat 0) = '/')
    (hdots : strstr request.path ['.', '.'] = none)
    (hreg : S_ISREG (stat_into w ('.' :: '/' :: request.path) w.stale).st_mode = false)
    (hdir : S_ISDIR (stat_into w ('.' :: '/' :: request.path) w.stale).st_mode = true) :
    handle_files_request w fd =
      if S_ISREG (stat_into w
          ('.' :: '/' :: request.path ++ "/index.html".toList ++ w.heap_junk)
          (stat_into w ('.' :: '/' :: request.path) w.stale)).st_mode then
        match serve_file w fd
            ('.' :: '/' :: request.path ++ "/index.html".toList ++ w.heap_junk)
            (to_int (stat_into w
              ('.' :: '/' :: request.path ++ "/index.html".toList ++ w.heap_junk)
              (stat_into w ('.' :: '/' :: request.path) w.stale)).st_size) with
        | none => none
        | some r => some (close_after fd
            ([Event.parse fd, Event.stat ('.' :: '/' :: request.path),
              Event.stat ('.' :: '/' :: request.path ++ "/index.html".toList ++ w.heap_junk)]
              ++ r.1, r.2))
      else
        some (close_after fd
          ([Event.parse fd, Event.stat ('.' :: '/' :: request.path),
            Event.stat ('.' :: '/' :: request.path ++ "/index.html".toList ++ w.heap_junk)]
            ++ (serve_directory w fd ('.' :: '/' :: request.path)).1,
           (serve_directory w fd ('.' :: '/' :: request.path)).2)) := by
  unfold handle_files_request
  simp only [hreq, hslash, hdots, hreg, hdir, ne_eq, not_true_eq_false, if_false, if_true,
    Option.isSome_none, Bool.false_eq_true, List.cons_append, List.nil_append,
    List.append_assoc]

/-- The inner loop writes to `dst_fd` only. -/
theorem write_loop_fds (dst_fd : Fd) (wr : Nat → Int) (buf : List Byte) (bytes_read : Int) :
    ∀ (fuel ptr : Nat) (bytes_remain : Int) (wi : Nat) (t : List Event) (wi1 : Nat),
      write_loop dst_fd wr buf bytes_read fuel ptr bytes_remain wi = some (t, wi1) →
      ∀ e ∈ t, Event.isWriteTo dst_fd e = true := by
  intro fuel
  induction fuel with
  | zero => intro ptr rem wi t wi1 h; simp [write_loop] at h
  | succ fuel ih =>
    intro ptr rem wi t wi1 h e he
    unfold write_loop at h
    simp only [] at h
    split at h
    · split at h
      · simp only [Option.some.injEq, Prod.mk.injEq] at h
        rw [← h.1] at he
        simp only [List.mem_singleton] at he
        rw [he]; simp [Event.isWriteTo]
      · split at h
        · exact absurd h (by simp)
        · rename_i t1 wi2 heq
          simp only [Option.some.injEq, Prod.mk.injEq] at h
          rw [← h.1] at he
          rcases List.mem_cons.1 he with h1 | h1
          · rw [h1]; simp [Event.isWriteTo]
          · exact ih _ _ _ _ _ heq e h1
    · simp only [Option.some.injEq, Prod.mk.injEq] at h
      rw [← h.1] at he
      simp only [List.mem_singleton] at he
      rw [he]; simp [Event.isWriteTo]

/-- The relay reads from `src_fd` and writes to `dst_fd`, and does nothing else. -/
theorem relay_loop_fds (src_fd dst_fd : Fd) (size : Int) (rd wr : Nat → Int) :
    ∀ (fuel : Nat) (src : List Byte) (ri wi : Nat) (t : List Event) (o : Outcome),
      relay_loop src_fd dst_fd size rd wr fuel src ri wi = some (t, o) →
      ∀ e ∈ t, Event.isReadFrom src_fd e = true ∨ Event.isWriteTo dst_fd e = true := by
  intro fuel
  induction fuel with
  | zero => intro src ri wi t o h; simp [relay_loop] at h
  | succ fuel ih =>
    intro src ri wi t o h e he
    unfold relay_loop at h
    simp only [] at h
    split at h
    · split at h
      · exact absurd h (by simp)
      · rename_i tw wi1 heq
        split at h
        · exact absurd h (by simp)
        · rename_i t1 o1 heq1
          simp only [Option.some.injEq, Prod.mk.injEq] at h
          rw [← h.1] at he
          rcases List.mem_cons.1 he with h1 | h1
          · rw [h1]; simp [Event.isReadFrom]
          · rcases List.mem_append.1 h1 with h2 | h2
            · exact Or.inr (write_loop_fds _ _ _ _ _ _ _ _ _ _ heq e h2)
            · exact ih _ _ _ _ _ heq1 e h2
    · simp only [Option.some.injEq, Prod.mk.injEq] at h
      rw [← h.1] at he
      simp only [List.mem_singleton] at he
      rw [he]; simp [Event.isReadFrom]

/-- In the builds other than `BASICSERVER` no iteration calls the handler. -/
theorem dispatch_without_handler (v : BuildVariant) (hv : v ≠ BuildVariant.BASICSERVER)
    (request_handler : Fd → Outcome) (fd : Fd) :
    dispatch v request_handler fd = ([], Outcome.returned) := by
  cases v with
  | BASICSERVER => exact absurd rfl hv
  | FORKSERVER => rfl
  | THREADSERVER => rfl
  | POOLSERVER => rfl

/-- In the builds other than `BASICSERVER` the accept loop never calls the
handler. -/
theorem accept_loop_without_handler (v : BuildVariant) (hv : v ≠ BuildVariant.BASICSERVER)
    (request_handler : Fd → Outcome) (socket_number : Fd) (accepts : List Int) :
    ∀ e ∈ (accept_loop v request_handler socket_number accepts).1,
      ServerEvent.isHandler e = false := by
  induction accepts with
  | nil => intro e he; simp [accept_loop] at he
  | cons a rest ih =>
    intro e he
    unfold accept_loop at he
    simp only [dispatch_without_handler v hv, if_true, List.nil_append] at he
    split at he
    · rcases List.mem_cons.1 he with h1 | h1
      · rw [h1]; rfl
      · exact ih e h1
    · rcases List.mem_cons.1 he with h1 | h1
      · rw [h1]; rfl
      · exact ih e h1

/-- The argument loop sets a serving mode only at an argument `--files` or
`--proxy`. -/
theorem parse_args_mode (atoi : CStr → Int) :
    ∀ (n : Nat) (args : List CStr) (cfg cfg1 : Config), args.length ≤ n →
      parse_args atoi cfg args = some cfg1 →
      opt_files ∉ args → opt_proxy ∉ args →
      cfg1.server_files_directory = cfg.server_files_directory
        ∧ cfg1.server_proxy_hostname = cfg.server_proxy_hostname := by
  intro n
  induction n with
  | zero =>
    intro args cfg cfg1 hn h _ _
    have : args = [] := List.length_eq_zero.1 (Nat.le_zero.1 hn)
    subst this
    simp only [parse_args, Option.some.injEq] at h
    rw [h]; exact ⟨rfl, rfl⟩
  | succ n ih =>
    intro args cfg cfg1 hn h hf hp
    cases args with
    | nil =>
      simp only [parse_args, Option.some.injEq] at h
      rw [h]; exact ⟨rfl, rfl⟩
    | cons a rest =>
      have haf : a ≠ opt_files := fun h1 => hf (by rw [h1]; exact List.mem_cons_self _ _)
      have hap : a ≠ opt_proxy := fun h1 => hp (by rw [h1]; exact List.mem_cons_self _ _)
      have hlen : ∀ (s : CStr) (rest1 : List CStr), rest = s :: rest1 → rest1.length ≤ n := by
        intro s rest1 hr
        rw [hr] at hn
        simp only [List.length_cons] at hn
        omega
      have hmf : ∀ (s : CStr) (rest1 : List CStr), rest = s :: rest1 → opt_files ∉ rest1 :=
        fun s rest1 hr h1 => hf (by
          rw [hr]; exact List.mem_cons_of_mem _ (List.mem_cons_of_mem _ h1))
      have hmp : ∀ (s : CStr) (rest1 : List CStr), rest = s :: rest1 → opt_proxy ∉ rest1 :=
        fun s rest1 hr h1 => hp (by
          rw [hr]; exact List.mem_cons_of_mem _ (List.mem_cons_of_mem _ h1))
      unfold parse_args at h
      simp only [haf, hap, if_false] at h
      split at h
      · split at h
        · exact absurd h (by simp)
        · rename_i s rest1
          have h2 := ih rest1 _ _ (hlen s rest1 rfl) h (hmf s rest1 rfl) (hmp s rest1 rfl)
          exact h2
      · split at h
        · split at h
          · exact absurd h (by simp)
          · rename_i s rest1
            split at h
            · exact absurd h (by simp)
            · have h2 := ih rest1 _ _ (hlen s rest1 rfl) h (hmf s rest1 rfl) (hmp s rest1 rfl)
              exact h2
        · split at h <;> exact absurd h (by simp)

/-- A descriptor a run reads from is one some `read` of the run is on. -/
theorem reads_from_iff (d : Fd) (t : List Event) :
    reads_from d t = true ↔ ∃ e ∈ t, Event.isReadFrom d e = true := by
  unfold reads_from
  exact List.any_eq_true

/-- A descriptor a run writes to is one some `write` of the run is on. -/
theorem writes_to_iff (d : Fd) (t : List Event) :
    writes_to d t = true ↔ ∃ e ∈ t, Event.isWriteTo d e = true := by
  unfold writes_to
  exact List.any_eq_true

/-- A relay between two different descriptors never reads and writes the same
one. -/
theorem relay_no_shared_descriptor (src_fd dst_fd : Fd) (size : Int) (rd wr : Nat → Int)
    (hne : src_fd ≠ dst_fd) (fuel : Nat) (src : List Byte) (ri wi : Nat)
    (t : List Event) (o : Outcome)
    (h : relay_loop src_fd dst_fd size rd wr fuel src ri wi = some (t, o)) :
    ∀ d, ¬ (reads_from d t = true ∧ writes_to d t = true) := by
  have hfds := relay_loop_fds src_fd dst_fd size rd wr fuel src ri wi t o h
  intro d hd
  obtain ⟨⟨e1, he1, hr1⟩, ⟨e2, he2, hw2⟩⟩ :=
    And.intro ((reads_from_iff d t).1 hd.1) ((writes_to_iff d t).1 hd.2)
  have hsrc : d = src_fd := by
    rcases hfds e1 he1 with h1 | h1
    · cases e1 <;> simp_all [Event.isReadFrom]
    · cases e1 <;> simp_all [Event.isReadFrom, Event.isWriteTo]
  have hdst : d = dst_fd := by
    rcases hfds e2 he2 with h1 | h1
    · cases e2 <;> simp_all [Event.isReadFrom, Event.isWriteTo]
    · cases e2 <;> simp_all [Event.isWriteTo]
  exact hne (hsrc.symm.trans hdst)

/-- The argument loop leaves in `request_handler` the handler of the mode option
given last, and keeps `request_handler` in step with the two mode variables:
it is `NULL` exactly when both of them are. -/
theorem parse_args_handler (atoi : CStr → Int) :
    ∀ (n : Nat) (args : List CStr) (cfg cfg1 : Config), args.length ≤ n →
      parse_args atoi cfg args = some cfg1 →
      cfg1.request_handler = last_mode cfg.request_handler args
        ∧ ((cfg.request_handler = none ↔
              (cfg.server_files_directory = none ∧ cfg.server_proxy_hostname = none)) →
           (cfg1.request_handler = none ↔
              (cfg1.server_files_directory = none ∧ cfg1.server_proxy_hostname = none))) := by
  intro n
  induction n with
  | zero =>
    intro args cfg cfg1 hn h
    have : args = [] := List.length_eq_zero.1 (Nat.le_zero.1 hn)
    subst this
    simp only [parse_args, Option.some.injEq] at h
    subst h
    exact ⟨rfl, fun hi => hi⟩
  | succ n ih =>
    intro args cfg cfg1 hn h
    cases args with
    | nil =>
      simp only [parse_args, Option.some.injEq] at h
      subst h
      exact ⟨rfl, fun hi => hi⟩
    | cons a rest =>
      cases rest with
      | nil =>
        unfold parse_args at h
        split at h
        · exact absurd h (by simp)
        · split at h
          · exact absurd h (by simp)
          · split at h
            · exact absurd h (by simp)
            · split at h
              · exact absurd h (by simp)
              · split at h <;> exact absurd h (by simp)
      | cons b rest1 =>
        have hlen : rest1.length ≤ n := by
          simp only [List.length_cons] at hn
          omega
        unfold parse_args at h
        by_cases hf : a = opt_files
        · simp only [hf, if_true] at h
          have h3 := ih rest1 _ cfg1 hlen h
          simp only [last_mode, hf, if_true]
          exact ⟨h3.1, fun _ => h3.2 (by simp)⟩
        · by_cases hp : a = opt_proxy
          · simp only [hf, hp, if_true, if_false] at h
            simp only [last_mode, hf, hp, if_true, if_false]
            by_cases hc : ':' ∈ b
            · simp only [hc, if_true] at h
              have h3 := ih rest1 _ cfg1 hlen h
              exact ⟨h3.1, fun _ => h3.2 (by simp)⟩
            · simp only [hc, if_false] at h
              have h3 := ih rest1 _ cfg1 hlen h
              exact ⟨h3.1, fun _ => h3.2 (by simp)⟩
          · simp only [hf, hp, if_false] at h
            simp only [last_mode, hf, hp, if_false]
            by_cases ho : a = opt_port
            · simp only [ho, if_true] at h
              have h3 := ih rest1 _ cfg1 hlen h
              exact ⟨h3.1, fun hi => h3.2 hi⟩
            · by_cases ht : a = opt_num_threads
              · simp only [ho, if_false] at h
                simp only [ht, if_true] at h
                by_cases hlt : atoi b < 1
                · simp only [hlt, if_true] at h
                  exact absurd h (by simp)
                · simp only [hlt, if_false] at h
                  have h3 := ih rest1 _ cfg1 hlen h
                  exact ⟨h3.1, fun hi => h3.2 hi⟩
              · simp only [ho, if_false] at h
                simp only [ht, if_false] at h
                split at h <;> exact absurd h (by simp)

/-- The argument loop on a list it accepts, followed by further arguments, goes
on with those from the configuration the accepted list left. -/
theorem parse_args_append (atoi : CStr → Int) (more : List CStr) :
    ∀ (n : Nat) (args : List CStr) (cfg cfg1 : Config), args.length ≤ n →
      parse_args atoi cfg args = some cfg1 →
      parse_args atoi cfg (args ++ more) = parse_args atoi cfg1 more := by
  intro n
  induction n with
  | zero =>
    intro args cfg cfg1 hn h
    have : args = [] := List.length_eq_zero.1 (Nat.le_zero.1 hn)
    subst this
    simp only [parse_args, Option.some.injEq] at h
    subst h
    rfl
  | succ n ih =>
    intro args cfg cfg1 hn h
    cases args with
    | nil =>
      simp only [parse_args, Option.some.injEq] at h
      subst h
      rfl
    | cons a rest =>
      cases rest with
      | nil =>
        unfold parse_args at h
        split at h
        · exact absurd h (by simp)
        · split at h
          · exact absurd h (by simp)
          · split at h
            · exact absurd h (by simp)
            · split at h
              · exact absurd h (by simp)
              · split at h <;> exact absurd h (by simp)
      | cons b rest1 =>
        have hlen : rest1.length ≤ n := by
          simp only [List.length_cons] at hn
          omega
        unfold parse_args at h
        rw [List.cons_append, List.cons_append]
        conv_lhs => unfold parse_args
        by_cases hf : a = opt_files
        · simp only [hf, if_true] at h
          simp only [hf, if_true]
          exact ih rest1 _ cfg1 hlen h
        · by_cases hp : a = opt_proxy
          · simp only [hf, hp, if_true, if_false] at h
            simp only [hf, hp, if_true, if_false]
            by_cases hc : ':' ∈ b
            · simp only [hc, if_true] at h
              simp only [hc, if_true]
              exact ih rest1 _ cfg1 hlen h
            · simp only [hc, if_false] at h
              simp only [hc, if_false]
              exact ih rest1 _ cfg1 hlen h
          · simp only [hf, hp, if_false] at h
            simp only [hf, hp, if_false]
            by_cases ho : a = opt_port
            · simp only [ho, if_true] at h
              simp only [ho, if_true]
              exact ih rest1 _ cfg1 hlen h
            · simp only [ho, if_false] at h
              simp only [ho, if_false]
              by_cases ht : a = opt_num_threads
              · simp only [ht, if_true] at h
                simp only [ht, if_true]
                by_cases hlt : atoi b < 1
                · simp only [hlt, if_true] at h
                  exact absurd h (by simp)
                · simp only [hlt, if_false] at h
                  simp only [hlt, if_false]
                  exact ih rest1 _ cfg1 hlen h
              · simp only [ht, if_false] at h
                split at h <;> exact absurd h (by simp)

/-! ## Claims about the directory index and the pumps -/

/-- C11 fails on the code: `/d` is a directory that holds a regular file
`index.html`, but the handler copies the 11 characters of `/index.html` into
`index_file` without a NUL, so `stat` probes the path as far as the block's old
contents run: here `.//d/index.htmlx`.  That path does not exist and the
directory is listed instead of the index file being served. -/
theorem index_probe_runs_past_copy :
    index_junk_world.stat ".//d/index.html".toList
        = some { st_mode := S_IFREG, st_size := 3 }
    ∧ handle_files_request index_junk_world 4 =
      some ([Event.parse 4,
             Event.stat ".//d".toList,
             Event.stat ".//d/index.htmlx".toList,
             Event.start_response 4 200,
             Event.send_header 4 "Content-Type" "text/plain",
             Event.end_headers 4,
             Event.opendir ".//d".toList,
             Event.write 4 [] 0,
             Event.close 4], Outcome.returned) := by
  decide

/-- C12. When `connect` succeeds, on a target descriptor other than the client
descriptor, the handler creates exactly two threads, one on `client_to_server`
and one on `server_to_client`, with the same argument.  The first is the relay
from the target descriptor to the client descriptor (it reads `ptr->client_fd`,
which holds `target_fd`), the second the relay from the client descriptor to the
target descriptor.  So each direction is carried: when reads and writes go
through, what the target sends is accepted by the client, and what the client
sends is accepted by the target, whole and in order.  And in no run does a pump
read and write one and the same descriptor. -/
theorem proxy_pumps_paired (w : ProxyWorld) (fd : Fd) (hsock : w.socket ≠ -1)
    (hdns : w.dns_found = true) (hconn : 0 ≤ w.connect) (hfresh : w.socket ≠ fd) :
    (handle_proxy_request w fd).1 =
        [Event.gethostbyname, Event.socket w.socket,
         Event.connect w.socket w.connect,
         Event.pthread_create 1 StartRoutine.client_to_server
           { server_fd := fd, client_fd := w.socket },
         Event.pthread_create 2 StartRoutine.server_to_client
           { server_fd := fd, client_fd := w.socket },
         Event.pthread_join 1,
         Event.pthread_join 2]
    ∧ (∀ rd wr src,
        StartRoutine.client_to_server.run { server_fd := fd, client_fd := w.socket }
          rd wr src = relay_byte_stream w.socket fd REQUEST_MAX_SIZE rd wr src)
    ∧ (∀ rd wr src,
        StartRoutine.server_to_client.run { server_fd := fd, client_fd := w.socket }
          rd wr src = relay_byte_stream fd w.socket REQUEST_MAX_SIZE rd wr src)
    ∧ (∀ rd wr src, (∀ i, 0 < rd i) → (∀ i, 0 < wr i) →
        ∃ t, StartRoutine.client_to_server.run { server_fd := fd, client_fd := w.socket }
              rd wr src = some (t, Outcome.returned)
          ∧ delivered fd t = src)
    ∧ (∀ rd wr src, (∀ i, 0 < rd i) → (∀ i, 0 < wr i) →
        ∃ t, StartRoutine.server_to_client.run { server_fd := fd, client_fd := w.socket }
              rd wr src = some (t, Outcome.returned)
          ∧ delivered w.socket t = src)
    ∧ (∀ (start_routine : StartRoutine) rd wr src t o,
        start_routine.run { server_fd := fd, client_fd := w.socket } rd wr src = some (t, o) →
        ∀ d, ¬ (reads_from d t = true ∧ writes_to d t = true)) := by
  refine ⟨?_, fun _ _ _ => rfl, fun _ _ _ => rfl, ?_, ?_, ?_⟩
  · unfold handle_proxy_request
    simp [hsock, hdns, not_lt.2 hconn]
  · intro rd wr src hr hw
    exact relay_loop_delivers w.socket fd REQUEST_MAX_SIZE rd wr (by decide) (by decide)
      hr hw (src.length + 1) src 0 0 (Nat.lt_succ_self _)
  · intro rd wr src hr hw
    exact relay_loop_delivers fd w.socket REQUEST_MAX_SIZE rd wr (by decide) (by decide)
      hr hw (src.length + 1) src 0 0 (Nat.lt_succ_self _)
  · intro start_routine rd wr src t o h
    cases start_routine with
    | client_to_server =>
      exact relay_no_shared_descriptor w.socket fd REQUEST_MAX_SIZE rd wr hfresh
        (src.length + 1) src 0 0 t o h
    | server_to_client =>
      exact relay_no_shared_descriptor fd w.socket REQUEST_MAX_SIZE rd wr
        (fun h1 => hfresh h1.symm) (src.length + 1) src 0 0 t o h

/-- C12, at client descriptor 4 and target descriptor 5. -/
theorem proxy_pumps_paired_witness :
    (handle_proxy_request connect_success_world 4).1 =
        [Event.gethostbyname, Event.socket 5,
         Event.connect 5 0,
         Event.pthread_create 1 StartRoutine.client_to_server
           { server_fd := 4, client_fd := 5 },
         Event.pthread_create 2 StartRoutine.server_to_client
           { server_fd := 4, client_fd := 5 },
         Event.pthread_join 1,
         Event.pthread_join 2]
    ∧ ∃ t, StartRoutine.client_to_server.run { server_fd := 4, client_fd := 5 }
              (fun _ => 8192) (fun _ => 2) [7, 8, 9] = some (t, Outcome.returned)
          ∧ delivered 4 t = [7, 8, 9] :=
  ⟨(proxy_pumps_paired connect_success_world 4 (by decide) rfl (by decide) (by decide)).1,
   (proxy_pumps_paired connect_success_world 4 (by decide) rfl (by decide)
      (by decide)).2.2.2.1 (fun _ => 8192) (fun _ => 2) [7, 8, 9]
      (fun _ => by norm_num) (fun _ => by norm_num)⟩

/-! ## Claims about serve_forever and main -/

/-- C13 fails on the code: with one connection accepted as descriptor 4, the
`BASICSERVER` build calls the handler on it, while the `FORKSERVER`,
`THREADSERVER` and `POOLSERVER` builds do nothing with it and go back to
`accept`. -/
theorem only_basic_build_dispatches :
    serve_forever BuildVariant.BASICSERVER one_client_world 2 =
      ([ServerEvent.socket 3, ServerEvent.setsockopt 3 0, ServerEvent.bind 3 0,
        ServerEvent.listen 3 0, ServerEvent.accept 3 4,
        ServerEvent.request_handler 4], ServerEnd.in_accept)
    ∧ serve_forever BuildVariant.FORKSERVER one_client_world 2 =
      ([ServerEvent.socket 3, ServerEvent.setsockopt 3 0, ServerEvent.bind 3 0,
        ServerEvent.listen 3 0, ServerEvent.accept 3 4], ServerEnd.in_accept)
    ∧ serve_forever BuildVariant.THREADSERVER one_client_world 2 =
      ([ServerEvent.socket 3, ServerEvent.setsockopt 3 0, ServerEvent.bind 3 0,
        ServerEvent.listen 3 0, ServerEvent.accept 3 4], ServerEnd.in_accept)
    ∧ serve_forever BuildVariant.POOLSERVER one_client_world 2 =
      ([ServerEvent.socket 3, ServerEvent.setsockopt 3 0, ServerEvent.bind 3 0,
        ServerEvent.listen 3 0, ServerEvent.init_thread_pool 2,
        ServerEvent.accept 3 4], ServerEnd.in_accept) := by
  decide

/-- C14 fails on the code: `bind` returns -1 and `listen` returns -1, and the
server goes on into the accept loop, where it calls `accept` again and again. -/
theorem bind_failure_enters_accept_loop :
    serve_forever BuildVariant.BASICSERVER bind_failure_world 0 =
      ([ServerEvent.socket 3, ServerEvent.setsockopt 3 0, ServerEvent.bind 3 (-1),
        ServerEvent.listen 3 (-1), ServerEvent.accept 3 (-1),
        ServerEvent.accept 3 (-1)], ServerEnd.in_accept) := by
  decide

/-- C15 as stated fails: given `--files d --proxy h`, `main` goes on to
`serve_forever`, with the handler of the option given last. -/
theorem both_modes_accepted :
    main sample_atoi BuildVariant.BASICSERVER [opt_files, ['d'], opt_proxy, ['h']] =
      MainEnd.serve_forever
        { request_handler := some Handler.handle_proxy_request,
          server_files_directory := some ['d'],
          server_proxy_hostname := some ['h'],
          server_proxy_port := 80,
          server_port := 8000,
          num_threads := 0 } := by
  decide

/-- C15, amended.  An argument list in which neither `--files` nor `--proxy`
occurs is rejected before serving starts, so `main` reaches `serve_forever` only
if at least one of them was given.  Giving both is no ground for rejection.
Whenever `main` reaches `serve_forever`, the handler it passes is that of the
mode option given last, whatever mode options came before it.  An argument list
`main` accepts is still accepted with `--proxy target` appended, then with the
proxy handler, and with `--files dir` appended, then with the file handler.  In
the builds other than `POOLSERVER` (which also wants `--num-threads`),
`--files dir --proxy target` is served by the proxy handler and
`--proxy target --files dir` by the file handler. -/
theorem main_mode_check (atoi : CStr → Int) (v : BuildVariant) (args : List CStr)
    (dir target : CStr) :
    (opt_files ∉ args → opt_proxy ∉ args → main atoi v args = MainEnd.exit_with_usage)
    ∧ (∀ cfg, main atoi v args = MainEnd.serve_forever cfg →
        cfg.request_handler = last_mode none args ∧ cfg.request_handler ≠ none)
    ∧ (∀ cfg, main atoi v args = MainEnd.serve_forever cfg →
        ∃ cfg2, main atoi v (args ++ [opt_proxy, target]) = MainEnd.serve_forever cfg2
          ∧ cfg2.request_handler = some Handler.handle_proxy_request)
    ∧ (∀ cfg, main atoi v args = MainEnd.serve_forever cfg →
        ∃ cfg2, main atoi v (args ++ [opt_files, dir]) = MainEnd.serve_forever cfg2
          ∧ cfg2.request_handler = some Handler.handle_files_request)
    ∧ (v ≠ BuildVariant.POOLSERVER →
        ∃ cfg, main atoi v [opt_files, dir, opt_proxy, target] = MainEnd.serve_forever cfg
          ∧ cfg.request_handler = some Handler.handle_proxy_request)
    ∧ (v ≠ BuildVariant.POOLSERVER →
        ∃ cfg, main atoi v [opt_proxy, target, opt_files, dir] = MainEnd.serve_forever cfg
          ∧ cfg.request_handler = some Handler.handle_files_request) := by
  have h2 : ¬ opt_proxy = opt_files := by decide
  have hacc : ∀ cfg, main atoi v args = MainEnd.serve_forever cfg →
      parse_args atoi initial_config args = some cfg
        ∧ ¬ (cfg.server_files_directory = none ∧ cfg.server_proxy_hostname = none)
        ∧ ¬ (v = BuildVariant.POOLSERVER ∧ cfg.num_threads < 1) := by
    intro cfg hmain
    unfold main at hmain
    cases h : parse_args atoi initial_config args with
    | none => rw [h] at hmain; simp at hmain
    | some cfg1 =>
      rw [h] at hmain
      simp only [] at hmain
      split at hmain
      · exact absurd hmain (by simp)
      · rename_i hmode
        split at hmain
        · exact absurd hmain (by simp)
        · rename_i hpool
          simp only [MainEnd.serve_forever.injEq] at hmain
          subst hmain
          exact ⟨rfl, hmode, hpool⟩
  refine ⟨?_, ?_, ?_, ?_, ?_, ?_⟩
  · intro hf hp
    unfold main
    cases h : parse_args atoi initial_config args with
    | none => rfl
    | some cfg =>
      obtain ⟨h1, h2⟩ := parse_args_mode atoi args.length args initial_config cfg
        (le_refl _) h hf hp
      simp only []
      rw [if_pos]
      exact ⟨h1, h2⟩
  · intro cfg hmain
    obtain ⟨h, hmode, _⟩ := hacc cfg hmain
    obtain ⟨h3, h4⟩ := parse_args_handler atoi args.length args initial_config cfg
      (le_refl _) h
    refine ⟨h3, ?_⟩
    intro hnone
    exact hmode ((h4 (by simp [initial_config])).1 hnone)
  · intro cfg hmain
    obtain ⟨h, _, hpool⟩ := hacc cfg hmain
    have happ := parse_args_append atoi [opt_proxy, target] args.length args
      initial_config cfg (le_refl _) h
    unfold main
    rw [happ]
    by_cases hc : ':' ∈ target
    · refine ⟨{ cfg with
          request_handler := some Handler.handle_proxy_request,
          server_proxy_hostname := some (target.takeWhile (fun c => c != ':')),
          server_proxy_port := atoi ((target.dropWhile (fun c => c != ':')).tail) }, ?_, rfl⟩
      simp [parse_args, h2, hc, hpool]
    · refine ⟨{ cfg with
          request_handler := some Handler.handle_proxy_request,
          server_proxy_hostname := some target,
          server_proxy_port := 80 }, ?_, rfl⟩
      simp [parse_args, h2, hc, hpool]
  · intro cfg hmain
    obtain ⟨h, _, hpool⟩ := hacc cfg hmain
    have happ := parse_args_append atoi [opt_files, dir] args.length args
      initial_config cfg (le_refl _) h
    unfold main
    rw [happ]
    refine ⟨{ cfg with
        request_handler := some Handler.handle_files_request,
        server_files_directory := some dir }, ?_, rfl⟩
    simp [parse_args, hpool]
  · intro hv
    unfold main
    by_cases hc : ':' ∈ target
    · refine ⟨{ request_handler := some Handler.handle_proxy_request,
                server_files_directory := some dir,
                server_proxy_hostname := some (target.takeWhile (fun c => c != ':')),
                server_proxy_port := atoi ((target.dropWhile (fun c => c != ':')).tail),
                server_port := 8000, num_threads := 0 }, ?_, rfl⟩
      simp [parse_args, h2, hc, initial_config, hv]
    · refine ⟨{ request_handler := some Handler.handle_proxy_request,
                server_files_directory := some dir,
                server_proxy_hostname := some target,
                server_proxy_port := 80,
                server_port := 8000, num_threads := 0 }, ?_, rfl⟩
      simp [parse_args, h2, hc, initial_config, hv]
  · intro hv
    unfold main
    by_cases hc : ':' ∈ target
    · refine ⟨{ request_handler := some Handler.handle_files_request,
                server_files_directory := some dir,
                server_proxy_hostname := some (target.takeWhile (fun c => c != ':')),
                server_proxy_port := atoi ((target.dropWhile (fun c => c != ':')).tail),
                server_port := 8000, num_threads := 0 }, ?_, rfl⟩
      simp [parse_args, h2, hc, initial_config, hv]
    · refine ⟨{ request_handler := some Handler.handle_files_request,
                server_files_directory := some dir,
                server_proxy_hostname := some target,
                server_proxy_port := 80,
                server_port := 8000, num_threads := 0 }, ?_, rfl⟩
      simp [parse_args, h2, hc, initial_config, hv]

/-- C15 amended, at the argument list `--port 8000`, which is rejected, and at
`--proxy h --files d` in the `BASICSERVER` build, which is served by the file
handler. -/
theorem main_mode_check_witness :
    main sample_atoi BuildVariant.BASICSERVER [opt_port, "8000".toList]
      = MainEnd.exit_with_usage
    ∧ ∃ cfg, main sample_atoi BuildVariant.BASICSERVER [opt_proxy, ['h'], opt_files, ['d']]
          = MainEnd.serve_forever cfg
        ∧ cfg.request_handler = some Handler.handle_files_request :=
  ⟨(main_mode_check sample_atoi BuildVariant.BASICSERVER [opt_port, "8000".toList] [] []).1
      (by decide) (by decide),
   (main_mode_check sample_atoi BuildVariant.BASICSERVER [] ['d'] ['h']).2.2.2.2.2
      (by decide)⟩

/-- C16. In every build, an iteration of the accept loop whose `accept` returns
a negative value issues that `accept` and nothing else (no handler call, no
`exit`), and the run goes on as the accept loop on the remaining answers,
that is with the next `accept`. -/
theorem failed_accept_not_fatal (v : BuildVariant) (request_handler : Fd → Outcome)
    (socket_number : Fd) (client_socket_number : Int) (rest : List Int)
    (h : client_socket_number < 0) :
    accept_loop v request_handler socket_number (client_socket_number :: rest) =
      (ServerEvent.accept socket_number client_socket_number ::
        (accept_loop v request_handler socket_number rest).1,
       (accept_loop v request_handler socket_number rest).2) := by
  conv_lhs => unfold accept_loop
  simp only [h, if_true]

/-- C16, at a failing `accept` followed by one that returns descriptor 4. -/
theorem failed_accept_not_fatal_witness :
    accept_loop BuildVariant.BASICSERVER (fun _ => Outcome.returned) 3 [-1, 4] =
      (ServerEvent.accept 3 (-1) ::
        (accept_loop BuildVariant.BASICSERVER (fun _ => Outcome.returned) 3 [4]).1,
       (accept_loop BuildVariant.BASICSERVER (fun _ => Outcome.returned) 3 [4]).2) :=
  failed_accept_not_fatal BuildVariant.BASICSERVER (fun _ => Outcome.returned) 3 (-1) [4]
    (by decide)

end HttpServer

/-! # Claims about the work queue -/

namespace WorkQueue

/-- Pushes append at the tail, in order. -/
theorem push_all_items (items : List Int) :
    ∀ q : wq_t, (push_all q items).items = q.items ++ items := by
  induction items with
  | nil => intro q; simp [push_all]
  | cons item rest ih =>
    intro q
    rw [push_all, ih]
    simp [push]

/-- Pops take from the head, in order. -/
theorem pop_n_items (xs : List Int) :
    ∀ (ys : List Int), pop_n xs.length { items := xs ++ ys } = some (xs, { items := ys }) := by
  induction xs with
  | nil => intro ys; rfl
  | cons x xs ih =>
    intro ys
    simp only [List.length_cons, pop_n, popBlocking, List.cons_append, ih]

/-- C18. On the queue of the spec, N pushes onto the empty queue followed by N
pops: no pop blocks, the pops return the items in the order they were pushed,
and the queue is empty again. -/
theorem work_queue_fifo (items : List Int) :
    pop_n items.length (push_all empty items) = some (items, empty) := by
  have h : push_all empty items = { items := items ++ [] } := by
    have h1 := push_all_items items empty
    cases hq : push_all empty items with
    | mk l =>
      rw [hq] at h1
      simp only [empty, List.nil_append] at h1
      simp [h1]
  rw [h]
  exact pop_n_items items []

end WorkQueue

/-! # Claims about word_count.c -/

namespace Words

/-- A word `find_word` does not find has no recorded count. -/
theorem recorded_of_not_found (word : HttpServer.CStr) :
    ∀ wclist : List WordCount, find_word wclist word = none → recorded wclist word = none := by
  intro wclist
  induction wclist with
  | nil => intro _; rfl
  | cons ptr next ih =>
    intro h
    unfold find_word at h
    split at h
    · exact absurd h (by simp)
    · rename_i hne
      simp only [Option.map_eq_none'] at h
      simp only [recorded, hne, if_false]
      exact ih h

/-- The increment at the node `find_word` returns: the recorded count of the
word found is incremented as an `int`, every other word keeps its count, and the
list keeps its length. -/
theorem increment_count_recorded (word : HttpServer.CStr) :
    ∀ (wclist : List WordCount) (k : Nat), find_word wclist word = some k →
      recorded (increment_count wclist k) word
          = (recorded wclist word).map (fun c => HttpServer.to_int (c + 1))
        ∧ (recorded wclist word).isSome = true
        ∧ (∀ other, other ≠ word →
            recorded (increment_count wclist k) other = recorded wclist other)
        ∧ (increment_count wclist k).length = wclist.length := by
  intro wclist
  induction wclist with
  | nil => intro k h; simp [find_word] at h
  | cons ptr next ih =>
    intro k h
    unfold find_word at h
    split at h
    · rename_i heq
      simp only [Option.some.injEq] at h
      subst h
      refine ⟨?_, ?_, ?_, ?_⟩
      · simp [increment_count, recorded, heq]
      · simp [recorded, heq]
      · intro other hne
        have : ¬ ptr.word = other := fun h1 => hne (by rw [← h1, heq])
        simp [increment_count, recorded, this]
      · simp [increment_count]
    · rename_i hne
      cases hf : find_word next word with
      | none => rw [hf] at h; simp at h
      | some j =>
        rw [hf] at h
        simp only [Option.map_some', Option.some.injEq] at h
        subst h
        obtain ⟨h1, h2, h3, h4⟩ := ih j hf
        refine ⟨?_, ?_, ?_, ?_⟩
        · simp only [increment_count, recorded, hne, if_false]
          exact h1
        · simp only [recorded, hne, if_false]
          exact h2
        · intro other ho
          simp only [increment_count, recorded]
          split
          · rfl
          · exact h3 other ho
        · simp [increment_count, h4]

/-- C17. For every list and every word whose recorded count, if any, is an
`int` below `INT_MAX`: `add_word` returns 0; afterwards the count recorded for
the word is its previous count plus one, or 1 if the word was absent; the count
recorded for every other word is unchanged; and the list is one entry longer
exactly when the word was absent. -/
theorem add_word_counts (wclist : List WordCount) (word : HttpServer.CStr)
    (hint : ∀ c, recorded wclist word = some c → -2147483648 ≤ c ∧ c < 2147483647) :
    (add_word wclist word).1 = 0
    ∧ recorded (add_word wclist word).2 word
        = some (match recorded wclist word with
                | some c => c + 1
                | none => 1)
    ∧ (∀ other, other ≠ word →
        recorded (add_word wclist word).2 other = recorded wclist other)
    ∧ (add_word wclist word).2.length
        = wclist.length + (if recorded wclist word = none then 1 else 0) := by
  unfold add_word
  cases hf : find_word wclist word with
  | some k =>
    obtain ⟨h1, h2, h3, h4⟩ := increment_count_recorded word wclist k hf
    cases hr : recorded wclist word with
    | none => rw [hr] at h2; simp at h2
    | some c =>
      obtain ⟨hlo, hhi⟩ := hint c hr
      have hc : HttpServer.to_int (c + 1) = c + 1 := by
        unfold HttpServer.to_int; omega
      refine ⟨rfl, ?_, ?_, ?_⟩
      · simp only [h1, hr, Option.map_some', hc]
      · exact h3
      · simp [h4]
  | none =>
    have hr := recorded_of_not_found word wclist hf
    cases wclist with
    | nil =>
      refine ⟨rfl, ?_, ?_, ?_⟩
      · simp [recorded]
      · intro other hne
        have : ¬ word = other := fun h => hne h.symm
        simp [recorded, this]
      · simp [recorded]
    | cons head next =>
      have hne : ¬ head.word = word := by
        intro h
        simp [recorded, h] at hr
      have hr1 : recorded next word = none := by
        simpa only [recorded, hne, if_false] using hr
      refine ⟨rfl, ?_, ?_, ?_⟩
      · simp [recorded, hne, hr1]
      · intro other ho
        have : ¬ word = other := fun h => ho h.symm
        simp only [recorded, this, if_false]
      · simp [hr]

/-- C17, at the list holding `a` once and the word `a`. -/
theorem add_word_counts_witness :
    (add_word [{ word := ['a'], count := 1 }] ['a']).1 = 0
    ∧ recorded (add_word [{ word := ['a'], count := 1 }] ['a']).2 ['a']
        = some (match recorded [{ word := ['a'], count := 1 }] ['a'] with
                | some c => c + 1
                | none => 1)
    ∧ (∀ other, other ≠ ['a'] →
        recorded (add_word [{ word := ['a'], count := 1 }] ['a']).2 other
          = recorded [{ word := ['a'], count := 1 }] other)
    ∧ (add_word [{ word := ['a'], count := 1 }] ['a']).2.length
        = [({ word := ['a'], count := 1 } : WordCount)].length
          + (if recorded [{ word := ['a'], count := 1 }] ['a'] = none then 1 else 0) :=
  add_word_counts [{ word := ['a'], count := 1 }] ['a'] (by
    intro c hc
    have : c = 1 := by
      simp [recorded] at hc
      exact hc.symm
    subst this
    decide)

/-- The loop of `len_words` counts the nodes after the one it starts at. -/
theorem len_words_loop_length :
    ∀ (next : List WordCount) (len : Nat), len_words_loop next len = len + next.length := by
  intro next
  induction next with
  | nil => intro len; rfl
  | cons _ rest ih =>
    intro len
    rw [len_words_loop, ih]
    simp only [List.length_cons]
    omega

/-- On a list of at least one entry `len_words` returns the number of entries
less one. -/
theorem len_words_nonempty (head : WordCount) (next : List WordCount) :
    len_words (head :: next) = some ((head :: next).length - 1) := by
  simp [len_words, len_words_loop_length]

/-- C19 fails on the code: after `init_words` and one `add_word` the list has
one entry and `len_words` returns 0; after `init_words` alone the list is `NULL`
and `len_words` reads `ptr->next` through it. -/
theorem len_words_off_by_one :
    (build [['a']]).length = 1
    ∧ len_words (build [['a']]) = some 0
    ∧ (build []).length = 0
    ∧ len_words (build []) = none := by
  decide

end Words

/-! # Claims about shell.c -/

namespace Shell

/-- C20 fails on the code.  For the empty line `main` calls
`identify_and_execute(0, 0, args)`: `lcl_end` starts at -1, below `lcl_start`,
and the first iteration reads `args[-1]`.  A line with a leading `|` does the
same for its first segment.  For a line with a doubled `|` the second segment
starts the loop with `lcl_end` below `lcl_start`, at the `NULL` stored for the
first `|`, and evaluates `*args[1]`. -/
theorem scan_leaves_args :
    scans [] = some [([-1], ScanEnd.out_of_bounds (-1))]
    ∧ scans [['|'], ['l', 's']] =
        some [([-1], ScanEnd.out_of_bounds (-1)), ([1], ScanEnd.done)]
    ∧ scans [['l', 's'], ['|'], ['|'], ['w', 'c']] =
        some [([], ScanEnd.done), ([1], ScanEnd.null_pointer 1), ([], ScanEnd.done)] := by
  decide

end Shell

/-! # Claims about pwords.c -/

namespace Pwords

/-- With at most five files, all threads created, `main` stores and joins its
handles inside `threads` and returns. -/
theorem main_up_to_five_files (argc : Nat) (h2 : 2 ≤ argc) (h6 : argc ≤ 6) :
    (main (fun _ => 0) argc).2 = PEnd.returned
    ∧ ∀ e ∈ (main (fun _ => 0) argc).1, ∀ k, e.index = some k → k < THREADS_CAPACITY := by
  interval_cases argc <;> decide

/-- C21 fails on the code: with six files (`argc = 7`) and every thread created,
the sixth `pthread_create` stores its handle in `threads[5]`, past the five
elements of the array. -/
theorem sixth_thread_handle_outside_array :
    main (fun _ => 0) 7 =
      ([PEvent.pthread_create 0 0, PEvent.pthread_create 1 0, PEvent.pthread_create 2 0,
        PEvent.pthread_create 3 0, PEvent.pthread_create 4 0, PEvent.pthread_create 5 0],
       PEnd.out_of_bounds 5)
    ∧ ¬ 5 < THREADS_CAPACITY := by
  decide

end Pwords
